import Mathlib

set_option maxHeartbeats 1000000

/-!
Shallow embedding of tensorflow/python/keras/_impl/keras/models.py:
the Sequential container (add/pop/build/compile and the training entry
points), get_config/from_config, save_model/load_model, and the clone
engine (_clone_sequential_model and _clone_functional_model).

Layers, tensors and graph models are handle-indexed records; the
collaborators that models.py calls but does not define (topology.Node,
Layer.__call__, Input, K.int_shape, get_source_inputs, the layer
deserialization registry, h5py archives) are modelled from the spec and
marked as such in their doc comments.
-/

namespace KerasModels

/-- Python exception classes raised by the module, with their message. -/
inductive PyErr where
  | typeError (m : String)
  | valueError (m : String)
  | runtimeError (m : String)
  | importError (m : String)
  | indexError (m : String)
  | attributeError (m : String)
deriving DecidableEq, Repr

/-- Message carried by an exception. -/
def PyErr.msg : PyErr → String
  | .typeError m => m
  | .valueError m => m
  | .runtimeError m => m
  | .importError m => m
  | .indexError m => m
  | .attributeError m => m

/-- Error text of models.py lines 502-506 and 521-526 (identical in both raise sites). -/
def singleOutputMsg : String :=
  "All layers in a Sequential model should have a single output tensor. For multi-output layers, use the functional API."

def notALayerMsg : String := "The added layer must be an instance of class Layer."

def emptyModelMsg : String := "Cannot add an empty model to a Sequential model."

def firstLayerShapeMsg : String := "The first layer in a Sequential model must get an input_shape argument."

def indexOutOfRangeMsg : String := "list index out of range"

def noLayersMsg : String := "There are no layers in the model."

def emptyBuildMsg : String := "Sequential model cannot be built: model is empty. Add some layers first."

def needsCompileMsg : String := "The model needs to be compiled before being used."

def noModelFoundMsg : String := "No model found in config file."

def noTrainingConfigMsg : String := "No training configuration found in save file: the model was not compiled. Compile it manually."

def optimizerStateMsg : String := "Error in loading the saved optimizer state."

def cloneCardMsg : String := "To clone a Sequential model, we expect at most one tensor as part of input_tensors."

def cloneOriginMsg : String := "Cannot clone a Sequential model on top of a tensor that comes from a Keras layer other than an InputLayer. Use the functional API instead."

/-- A first-layer candidate for the shape inference in Sequential.add: either a
regular layer carrying the optional batch_input_shape attribute and a dtype
code, or a nested model wrapper holding its own ordered list of layers. -/
inductive NLayer where
  | plain (batchShape : Option Nat) (dtype : Nat)
  | modelL (sublayers : List NLayer)

/-- Translation of models.py lines 481-484: starting from a first layer, run
the loop `while isinstance(first_layer, (Model, Sequential)): first_layer =
first_layer.layers[0]` and then read `first_layer._batch_input_shape` and
`first_layer.dtype`. Reading `layers[0]` of an empty nested model raises
IndexError; reading a missing batch_input_shape attribute raises
AttributeError. -/
def descendFirst : NLayer → Except PyErr (Nat × Nat)
  | .plain none _ => .error (.attributeError "_batch_input_shape")
  | .plain (some b) d => .ok (b, d)
  | .modelL [] => .error (.indexError indexOutOfRangeMsg)
  | .modelL (s :: _) => descendFirst s

/-- Translation of models.py lines 475-484: the nested-model branch of the
first-layer shape inference. Only the top level is checked for emptiness
(raising the ConfigKind ValueError); deeper levels go through descendFirst. -/
def nestedBatchShape (subs : List NLayer) : Except PyErr (Nat × Nat) :=
  match subs with
  | [] => .error (.valueError emptyModelMsg)
  | s :: _ => descendFirst s

/-- Specification-side predicate: the leftmost spine of nested models is free
of empty models and ends at a plain layer with a declared batch shape. -/
def goodSpine : NLayer → Prop
  | .plain b _ => b.isSome
  | .modelL [] => False
  | .modelL (s :: _) => goodSpine s

/-- Specification-side function: the batch shape and dtype of the deepest
first layer along the leftmost spine. -/
def deepestFirst : NLayer → (Option Nat × Nat)
  | .plain b d => (b, d)
  | .modelL [] => (none, 0)
  | .modelL (s :: _) => deepestFirst s

/-- Structural kind of a layer as dispatched on by Sequential.add:
a regular layer, an InputLayer, or a nested Model/Sequential wrapper. -/
inductive LKind where
  | plain
  | inputL
  | modelK (subs : List NLayer)

instance : Inhabited LKind := ⟨.plain⟩

/-- Static description of a layer: class name and config (as serialized by
get_config), the number of output tensors one invocation produces, the
declared batch_input_shape attribute (none when absent), a dtype code, the
shape code of produced outputs, and the structural kind. -/
structure LayerSpec where
  className : String
  cfg : Nat
  numOutputs : Nat
  batchShape : Option Nat
  dtype : Nat
  outShape : Nat
  kind : LKind
deriving Inhabited

/-- Modelled from the spec: a topology.Node records one invocation of a layer,
with its input tensors, output tensors and output shapes. -/
structure LNode where
  inputTensors : List Nat
  outputTensors : List Nat
  outputShapes : List Nat
deriving DecidableEq, Repr

/-- Mutable state of a layer instance: its static spec, the list of inbound
nodes (one per invocation), and the number of outbound node registrations. -/
structure LayerSt where
  spec : LayerSpec
  inbound : List LNode
  outboundCount : Nat

/-- Modelled from the spec: the weak back-reference data of a tensor handle:
its shape code, its originating layer (none for raw non-Keras tensors, so that
K.is_keras_tensor is origin.isSome), and the source input tensors that
topology.get_source_inputs would return for it. -/
structure TInfo where
  shape : Nat
  origin : Option Nat
  srcInputs : List Nat
deriving DecidableEq, Repr

/-- The object arena: layer instances and tensors keyed by integer handles,
plus the next fresh handle. -/
structure World where
  layerTbl : List (Nat × LayerSt)
  tensorTbl : List (Nat × TInfo)
  nextId : Nat

/-- State of a Sequential model (models.py lines 408-446): the layer stack,
the lazily built internal Model handle, input/output tensors, the synthetic
inbound Node list, and the built/compiled flags. -/
structure Sequential where
  layersL : List Nat
  modelRef : Option Nat
  inputs : List Nat
  outputs : List Nat
  inbound : List LNode
  built : Bool
  compiledFlag : Bool

/-- A freshly constructed Sequential() (models.py lines 408-442). -/
def emptySeq : Sequential :=
  { layersL := [], modelRef := none, inputs := [], outputs := [],
    inbound := [], built := false, compiledFlag := false }

def lookupLayer (w : World) (lid : Nat) : Option LayerSt :=
  List.lookup lid w.layerTbl

/-- Layer spec of a handle (default spec when the handle is dangling). -/
def getSpec (w : World) (lid : Nat) : LayerSpec :=
  ((lookupLayer w lid).map LayerSt.spec).getD default

def updLayer (w : World) (lid : Nat) (f : LayerSt → LayerSt) : World :=
  { w with layerTbl := w.layerTbl.map (fun p => if p.1 = lid then (p.1, f p.2) else p) }

def lookupTensor (w : World) (t : Nat) : Option TInfo :=
  List.lookup t w.tensorTbl

/-- Modelled from the spec: K.int_shape of a tensor handle. -/
def shapeOf (w : World) (t : Nat) : Nat :=
  ((lookupTensor w t).map TInfo.shape).getD 0

/-- Modelled from the spec: x._keras_history[0], the originating layer of a
graph tensor; none exactly when K.is_keras_tensor(x) is false. -/
def originOf (w : World) (t : Nat) : Option Nat :=
  (lookupTensor w t).bind TInfo.origin

/-- Modelled from the spec: topology.get_source_inputs for a tensor handle. -/
def srcInputsOf (w : World) (t : Nat) : List Nat :=
  ((lookupTensor w t).map TInfo.srcInputs).getD []

/-- Allocate n fresh output tensors sharing a shape code, originating layer
and source-input list. -/
def freshTensors (w : World) (n : Nat) (sh : Nat) (org : Option Nat) (src : List Nat) :
    World × List Nat :=
  ({ w with
      tensorTbl :=
        ((List.range n).map (fun i => (w.nextId + i, (⟨sh, org, src⟩ : TInfo)))).reverse
          ++ w.tensorTbl,
      nextId := w.nextId + n },
   (List.range n).map (fun i => w.nextId + i))

/-- Modelled from the spec: Input(batch_shape=b, dtype=d, ...) creates a fresh
InputLayer whose single Node has the new placeholder tensor as both input and
output; the tensor is its own source input. Returns (world, layer, tensor). -/
def mkInput (w : World) (b : Nat) (d : Nat) : World × Nat × Nat :=
  let lid := w.nextId
  let t := w.nextId + 1
  let sp : LayerSpec :=
    { className := "InputLayer", cfg := 0, numOutputs := 1, batchShape := some b,
      dtype := d, outShape := b, kind := .inputL }
  ({ layerTbl := (lid, ⟨sp, [⟨[t], [t], [b]⟩], 0⟩) :: w.layerTbl,
     tensorTbl := (t, ⟨b, some lid, [t]⟩) :: w.tensorTbl,
     nextId := w.nextId + 2 }, lid, t)

/-- Modelled from the spec: layer(x), invoking a layer on one input tensor.
Creates numOutputs fresh output tensors, appends the call Node to the layer's
inbound nodes, and registers an outbound use with the producer of x. Returns
the Python result as a list (the caller treats a length other than one as the
list case of isinstance(output_tensor, list)). -/
def callLayer (w : World) (lid : Nat) (x : Nat) : World × List Nat :=
  let sp := getSpec w lid
  let src := srcInputsOf w x
  let p := freshTensors w sp.numOutputs sp.outShape (some lid) src
  let node : LNode := ⟨[x], p.2, p.2.map (fun _ => sp.outShape)⟩
  let w2 := updLayer p.1 lid (fun st => { st with inbound := st.inbound ++ [node] })
  let w3 :=
    match originOf w x with
    | some q => updLayer w2 q (fun st => { st with outboundCount := st.outboundCount + 1 })
    | none => w2
  (w3, p.2)

/-- Translation of Sequential.add (models.py lines 448-533). The layer is
given by handle; a dangling handle models a non-Layer argument (TypeError).
The first-layer branch synthesizes an input (unless the layer is an
InputLayer), invokes the layer, checks the single-output rule on the new
node, sets outputs/inputs and creates the synthetic top-level Node; the
subsequent branch invokes the layer on the current output tensor, rejects a
list result, and updates outputs and the synthetic Node metadata in place. -/
def Sequential.add (w : World) (s : Sequential) (lid : Nat) :
    Except PyErr (World × Sequential) :=
  match lookupLayer w lid with
  | none => .error (.typeError notALayerMsg)
  | some st =>
    match s.outputs with
    | [] =>
      let step1 : Except PyErr World :=
        match st.spec.kind with
        | .inputL => .ok w
        | .modelK subs =>
          match nestedBatchShape subs with
          | .error e => .error e
          | .ok bd =>
            match mkInput w bd.1 bd.2 with
            | (w1, _, x) => .ok (callLayer w1 lid x).1
        | .plain =>
          match st.spec.batchShape with
          | none => .error (.valueError firstLayerShapeMsg)
          | some b =>
            match mkInput w b st.spec.dtype with
            | (w1, _, x) => .ok (callLayer w1 lid x).1
      match step1 with
      | .error e => .error e
      | .ok w1 =>
        match (((lookupLayer w1 lid).map LayerSt.inbound).getD []).getLast? with
        | none => .error (.indexError indexOutOfRangeMsg)
        | some node =>
          if node.outputTensors.length ≠ 1 then .error (.valueError singleOutputMsg)
          else
            let t0 := node.outputTensors.headD 0
            let ins := srcInputsOf w1 t0
            .ok (w1, { s with
                      outputs := [t0],
                      inputs := ins,
                      inbound := s.inbound ++ [⟨ins, [t0], [shapeOf w1 t0]⟩],
                      layersL := s.layersL ++ [lid],
                      built := false })
    | t :: _ =>
      let p := callLayer w lid t
      if p.2.length ≠ 1 then .error (.typeError singleOutputMsg)
      else
        let t0 := p.2.headD 0
        match s.inbound with
        | [] => .error (.indexError indexOutOfRangeMsg)
        | n0 :: rest =>
          .ok (p.1, { s with
              outputs := [t0],
              inbound := { n0 with outputTensors := [t0], outputShapes := [shapeOf p.1 t0] } :: rest,
              layersL := s.layersL ++ [lid],
              built := false })

/-- Modelled from the spec: the Layer.output property, the single output
tensor of the layer's unique inbound node (an error when the layer does not
have exactly one inbound node with exactly one output tensor). -/
def layerOutput (w : World) (lid : Nat) : Except PyErr Nat :=
  match ((lookupLayer w lid).map LayerSt.inbound).getD [] with
  | [node] =>
    match node.outputTensors with
    | [t] => .ok t
    | _ => .error (.attributeError "layer output")
  | _ => .error (.attributeError "layer output")

/-- Translation of Sequential.pop (models.py lines 535-555): drop the last
layer; if the stack becomes empty clear outputs and node lists, otherwise
clear the new last layer's outbound nodes and re-derive the output tensor and
the synthetic Node metadata from its output property. -/
def Sequential.pop (w : World) (s : Sequential) : Except PyErr (World × Sequential) :=
  match s.layersL.getLast? with
  | none => .error (.typeError noLayersMsg)
  | some _ =>
    let rest := s.layersL.dropLast
    match rest.getLast? with
    | none =>
      .ok (w, { s with layersL := rest, outputs := [], inbound := [], built := false })
    | some p =>
      let w1 := updLayer w p (fun st => { st with outboundCount := 0 })
      match layerOutput w1 p with
      | .error e => .error e
      | .ok t =>
        match s.inbound with
        | [] => .error (.indexError indexOutOfRangeMsg)
        | n0 :: rs =>
          .ok (w1, { s with
                      layersL := rest,
                      outputs := [t],
                      inbound := { n0 with outputTensors := [t], outputShapes := [shapeOf w1 t] } :: rs,
                      built := false })

/-- Translation of Sequential.build (models.py lines 580-608): error when the
model is empty, otherwise unconditionally construct a fresh internal Model
handle and set built. (The attribute mirroring onto the container copies
collaborator-owned data and is not modelled.) -/
def Sequential.build (w : World) (s : Sequential) : Except PyErr (World × Sequential) :=
  if s.inputs = [] ∨ s.outputs = [] then .error (.typeError emptyBuildMsg)
  else
    .ok ({ w with nextId := w.nextId + 1 },
         { s with modelRef := some w.nextId, built := true })

/-- The guarded call pattern used by every built-dependent delegation
(models.py lines 571-572, 576-577, 943-944, ...): if not self.built, build. -/
def Sequential.forceBuild (w : World) (s : Sequential) : Except PyErr (World × Sequential) :=
  if s.built then .ok (w, s) else Sequential.build w s

/-- Translation of Sequential.compile (models.py lines 703-777): build, then
delegate to the inner Model's compile (collaborator) and record the compiled
state. -/
def Sequential.compile (w : World) (s : Sequential) : Except PyErr (World × Sequential) :=
  match Sequential.build w s with
  | .error e => .error e
  | .ok (w1, s1) => .ok (w1, { s1 with compiledFlag := true })

/-- Translation of the guard of Sequential.fit (models.py lines 883-884); the
delegation to the inner Model is a collaborator call modelled as success. -/
def Sequential.fit (s : Sequential) : Except PyErr Unit :=
  if s.built = false then .error (.runtimeError needsCompileMsg) else .ok ()

/-- Translation of the guard of Sequential.evaluate (models.py lines 921-922). -/
def Sequential.evaluate (s : Sequential) : Except PyErr Unit :=
  if s.built = false then .error (.runtimeError needsCompileMsg) else .ok ()

/-- Translation of the guard of Sequential.train_on_batch (models.py lines 981-982). -/
def Sequential.train_on_batch (s : Sequential) : Except PyErr Unit :=
  if s.built = false then .error (.runtimeError needsCompileMsg) else .ok ()

/-- Translation of the guard of Sequential.test_on_batch (models.py lines 1004-1005). -/
def Sequential.test_on_batch (s : Sequential) : Except PyErr Unit :=
  if s.built = false then .error (.runtimeError needsCompileMsg) else .ok ()

/-- Translation of the guard of Sequential.fit_generator (models.py lines
1162-1163), in the call form without legacy keyword arguments. -/
def Sequential.fit_generator (s : Sequential) : Except PyErr Unit :=
  if s.built = false then .error (.runtimeError needsCompileMsg) else .ok ()

/-- Translation of the guard of Sequential.evaluate_generator (models.py lines
1231-1232), in the call form without legacy keyword arguments. -/
def Sequential.evaluate_generator (s : Sequential) : Except PyErr Unit :=
  if s.built = false then .error (.runtimeError needsCompileMsg) else .ok ()

/-- Translation of the guard of Sequential.predict (models.py lines 943-944):
predict builds when needed instead of raising. -/
def Sequential.predict (w : World) (s : Sequential) : Except PyErr (World × Sequential) :=
  Sequential.forceBuild w s

/-- Translation of Sequential.get_config (models.py lines 1299-1306): the
ordered list of (class_name, config) records of the layer stack. -/
def Sequential.get_config (w : World) (s : Sequential) : List (String × Nat) :=
  s.layersL.map (fun lid => ((getSpec w lid).className, (getSpec w lid).cfg))

/-- Modelled from the spec: layer_module.deserialize materializes a fresh,
unconnected layer instance from a (class_name, config) record, its spec given
by the registry function des. -/
def materialize (des : String × Nat → LayerSpec) (w : World) (r : String × Nat) :
    World × Nat :=
  ({ w with
      layerTbl := (w.nextId, ⟨des r, [], 0⟩) :: w.layerTbl,
      nextId := w.nextId + 1 }, w.nextId)

/-- The replay loop of Sequential.from_config (models.py lines 1310-1314):
deserialize each record and add it to the model under construction. -/
def fromConfigAux (des : String × Nat → LayerSpec) (w : World) (s : Sequential) :
    List (String × Nat) → Except PyErr (World × Sequential)
  | [] => .ok (w, s)
  | r :: rs =>
    let p := materialize des w r
    match Sequential.add p.1 s p.2 with
    | .error e => .error e
    | .ok (w2, s2) => fromConfigAux des w2 s2 rs

/-- Translation of Sequential.from_config (models.py lines 1308-1314). -/
def Sequential.from_config (des : String × Nat → LayerSpec) (w : World)
    (conf : List (String × Nat)) : Except PyErr (World × Sequential) :=
  fromConfigAux des w emptySeq conf

/-- The add loop of the Sequential constructor (models.py lines 444-446),
also used when a clone rebuilds a Sequential from a layer list. -/
def addAllL (w : World) (s : Sequential) : List Nat → Except PyErr (World × Sequential)
  | [] => .ok (w, s)
  | l :: ls =>
    match Sequential.add w s l with
    | .error e => .error e
    | .ok (w2, s2) => addAllL w2 s2 ls

/-- Sequential(layers=lids): construct an empty Sequential and add each layer. -/
def mkSequential (w : World) (lids : List Nat) : Except PyErr (World × Sequential) :=
  addAllL w emptySeq lids

/-- Translation of the clone helper of _clone_sequential_model (models.py
lines 1485-1486): layer.__class__.from_config(layer.get_config()), a fresh
unconnected instance with the same spec. -/
def cloneLayer (w : World) (lid : Nat) : World × Nat :=
  ({ w with
      layerTbl := (w.nextId, ⟨getSpec w lid, [], 0⟩) :: w.layerTbl,
      nextId := w.nextId + 1 }, w.nextId)

/-- Clone every layer of the stack in order (models.py line 1488). -/
def cloneLayers (w : World) : List Nat → World × List Nat
  | [] => (w, [])
  | l :: ls =>
    let p := cloneLayer w l
    let q := cloneLayers p.1 ls
    (q.1, p.2 :: q.2)

/-- Modelled from the spec: Input(tensor=x, ...) wraps an external raw tensor
in a fresh InputLayer; x becomes a graph tensor originating from it. -/
def wrapInput (w : World) (x : Nat) : World × Nat :=
  let lid := w.nextId
  let sh := shapeOf w x
  let sp : LayerSpec :=
    { className := "InputLayer", cfg := 0, numOutputs := 1, batchShape := none,
      dtype := 0, outShape := sh, kind := .inputL }
  ({ layerTbl := (lid, ⟨sp, [⟨[x], [x], [sh]⟩], 0⟩) :: w.layerTbl,
     tensorTbl := (x, ⟨sh, some lid, [x]⟩) :: w.tensorTbl,
     nextId := w.nextId + 1 }, lid)

/-- Translation of _clone_sequential_model (models.py lines 1459-1508). All
layers are re-instantiated from config; with no replacement input a new
Sequential is built from the clones; a replacement input list must hold
exactly one tensor, and a Keras tensor is accepted only when its originating
layer is an InputLayer (which is then prepended by reference), while a raw
tensor is wrapped in a fresh input layer. -/
def _clone_sequential_model (w : World) (s : Sequential)
    (inputTensors : Option (List Nat)) : Except PyErr (World × Sequential) :=
  let c := cloneLayers w s.layersL
  match inputTensors with
  | none => mkSequential c.1 c.2
  | some ts =>
    if ts.length ≠ 1 then .error (.valueError cloneCardMsg)
    else
      let x := ts.headD 0
      match originOf c.1 x with
      | some o =>
        match (getSpec c.1 o).kind with
        | .inputL => mkSequential c.1 (o :: c.2)
        | _ => .error (.valueError cloneOriginMsg)
      | none =>
        let q := wrapInput c.1 x
        mkSequential q.1 (q.2 :: c.2)

/-- Archive contents relevant to load_model (models.py lines 243-305): the
optional model_config and training_config attributes and whether an
optimizer_weights group is present. Weight payloads live with collaborators. -/
structure Archive where
  modelConfig : Option Nat
  trainingConfig : Option Nat
  hasOptimizerWeights : Bool
deriving DecidableEq, Repr

/-- Translation of load_model (models.py lines 188-305), parametrized by its
collaborators: des is model_from_config, loadW is
topology.load_weights_from_hdf5_group, compileFn is Model.compile and setOptW
is optimizer.set_weights. Returns the model handle, whether it was compiled,
and the warnings logged. A ValueError from setOptW is downgraded to a warning
(lines 298-304). -/
def load_model (h5pyOk : Bool)
    (des : Nat → Except PyErr Nat)
    (loadW : Nat → Except PyErr Unit)
    (compileFn : Nat → Nat → Except PyErr Unit)
    (setOptW : Nat → Except PyErr Unit)
    (f : Archive) (compileFlag : Bool) :
    Except PyErr (Nat × Bool × List String) :=
  if h5pyOk = false then .error (.importError "load_model requires h5py.")
  else
    match f.modelConfig with
    | none => .error (.valueError noModelFoundMsg)
    | some cfg =>
      match des cfg with
      | .error e => .error e
      | .ok m =>
        match loadW m with
        | .error e => .error e
        | .ok _ =>
          if compileFlag = false then .ok (m, false, [])
          else
            match f.trainingConfig with
            | none => .ok (m, false, [noTrainingConfigMsg])
            | some tc =>
              match compileFn m tc with
              | .error e => .error e
              | .ok _ =>
                if f.hasOptimizerWeights then
                  match setOptW m with
                  | .ok _ => .ok (m, true, [])
                  | .error (.valueError _) => .ok (m, true, [optimizerStateMsg])
                  | .error e => .error e
                else .ok (m, true, [])

namespace FClone

/-- A node of a functional model graph as consumed by _clone_functional_model:
the owning (outbound) layer handle and the original input and output tensor
handles of the recorded invocation. -/
structure FNode where
  layer : Nat
  inputs : List Nat
  outputs : List Nat
deriving DecidableEq, Repr

/-- The data of a functional Model read by _clone_functional_model: declared
input and output tensors, the _input_layers list (pre-cached in layer_map by
the placeholder-creation loop, models.py lines 1350-1361), the set of layer
handles that are InputLayer instances, and the _nodes_by_depth index. -/
structure FModel where
  inputs : List Nat
  outputs : List Nat
  inputLayers : List Nat
  inputLayerIds : List Nat
  nodesByDepth : List (Nat × List FNode)
deriving DecidableEq, Repr

/-- State of the clone traversal: the layer cache, the tensor substitution
map (original tensor to cloned tensor), a fresh-handle counter, and a ghost
flag recording whether any node was silently skipped because not all of its
input tensors were present in the substitution map (the implicit else of the
check at models.py line 1419). -/
structure CState where
  layerMap : List (Nat × Nat)
  tensorMap : List (Nat × Nat)
  fresh : Nat
  skipped : Bool
deriving DecidableEq, Repr

/-- A tensor is present (as a key) in the substitution map. -/
def present (st : CState) (x : Nat) : Prop :=
  (List.lookup x st.tensorMap).isSome = true

instance (st : CState) (x : Nat) : Decidable (present st x) := by
  unfold present; infer_instance

/-- Record substitutions for a list of original tensors, each mapped to a
fresh clone handle (used both for the input seeding of models.py lines
1383-1384 and for the output recording of lines 1444-1447). -/
def addSubsts (ts : List Nat) (st : CState) : CState :=
  ts.foldl (fun st x =>
    { st with tensorMap := (x, st.fresh) :: st.tensorMap, fresh := st.fresh + 1 }) st

/-- Pre-cache a fresh clone for each given layer handle (the placeholder
creation loop of models.py lines 1350-1361). -/
def seedLayers (ls : List Nat) (st : CState) : CState :=
  ls.foldl (fun st l =>
    { st with layerMap := (l, st.fresh) :: st.layerMap, fresh := st.fresh + 1 }) st

/-- Translation of the per-node body of _clone_functional_model (models.py
lines 1391-1447): resolve or clone-and-cache the owning layer, skip an
already-cached InputLayer, gather the already-substituted inputs, and if all
inputs are available invoke the layer (fresh output tensors) and record the
output substitutions; otherwise leave the map unchanged (the ghost flag
skipped records that this silent skip happened). -/
def visitNode (ids : List Nat) (st : CState) (n : FNode) : CState :=
  let resolved :=
    match List.lookup n.layer st.layerMap with
    | none =>
      ({ st with layerMap := (n.layer, st.fresh) :: st.layerMap, fresh := st.fresh + 1 },
       false)
    | some _ => (st, decide (n.layer ∈ ids))
  if resolved.2 then resolved.1
  else
    let st1 := resolved.1
    let computed := n.inputs.filter (fun x => (List.lookup x st1.tensorMap).isSome)
    if computed.length = n.inputs.length then addSubsts n.outputs st1
    else { st1 with skipped := true }

/-- Process one depth bucket in order (models.py lines 1390-1391). -/
def visitBucket (ids : List Nat) (st : CState) (ns : List FNode) : CState :=
  ns.foldl (visitNode ids) st

/-- Insertion of a key into a descending-sorted list. -/
def insertDesc (a : Nat) : List Nat → List Nat
  | [] => [a]
  | b :: l => if b < a then a :: b :: l else b :: insertDesc a l

/-- depth_keys.sort(reverse=True) of models.py lines 1387-1388. -/
def sortDesc : List Nat → List Nat
  | [] => []
  | a :: l => insertDesc a (sortDesc l)

/-- The nodes stored at a given depth (model._nodes_by_depth[depth]). -/
def bucketOf (m : FModel) (d : Nat) : List FNode :=
  (List.lookup d m.nodesByDepth).getD []

/-- Translation of the traversal core of _clone_functional_model (models.py
lines 1346-1447) in the placeholder path: pre-cache clones of the input
layers, seed the substitution map with the model inputs mapped to fresh
placeholder tensors, then walk the depth keys in decreasing order visiting
every node of each bucket. -/
def runClone (m : FModel) : CState :=
  let st0 : CState := { layerMap := [], tensorMap := [], fresh := 0, skipped := false }
  let st1 := seedLayers m.inputLayers st0
  let st2 := addSubsts m.inputs st1
  (sortDesc (m.nodesByDepth.map Prod.fst)).foldl
    (fun st d => visitBucket m.inputLayerIds st (bucketOf m d)) st2

/-- A tensor is produced above depth d: it is a declared model input, or an
output of some node bucketed at a depth strictly greater than d. -/
def producedAbove (m : FModel) (d : Nat) (x : Nat) : Prop :=
  x ∈ m.inputs ∨ ∃ p ∈ m.nodesByDepth, d < p.1 ∧ ∃ n ∈ p.2, x ∈ n.outputs

instance (m : FModel) (d x : Nat) : Decidable (producedAbove m d x) := by
  unfold producedAbove; infer_instance

/-- A small well-formed functional model used as a concrete instance: one
input layer node at depth 1 and one plain layer node at depth 0. -/
def demoFModel : FModel :=
  { inputs := [0], outputs := [2], inputLayers := [100], inputLayerIds := [100],
    nodesByDepth := [(0, [⟨200, [0], [2]⟩]), (1, [⟨100, [0], [0]⟩])] }

/-- Well-formedness of a functional model, the precondition of the claim:
depth keys are unique (a dict index); every node input is produced at a
strictly greater depth; every node owned by an InputLayer outputs declared
model inputs only (such nodes are the ones the traversal may skip as
pass-through); and every declared output is an input or some node output. -/
structure WF (m : FModel) : Prop where
  nodupKeys : (m.nodesByDepth.map Prod.fst).Nodup
  inputsAbove : ∀ p ∈ m.nodesByDepth, ∀ n ∈ p.2, ∀ x ∈ n.inputs, producedAbove m p.1 x
  inputNodesCovered : ∀ p ∈ m.nodesByDepth, ∀ n ∈ p.2,
    n.layer ∈ m.inputLayerIds → ∀ x ∈ n.outputs, x ∈ m.inputs
  outputsProduced : ∀ x ∈ m.outputs,
    x ∈ m.inputs ∨ ∃ p ∈ m.nodesByDepth, ∃ n ∈ p.2, x ∈ n.outputs

end FClone

/-- Arena invariant: every registered layer and tensor handle is below the
fresh counter. -/
def WWf (w : World) : Prop :=
  (∀ p ∈ w.layerTbl, p.1 < w.nextId) ∧ (∀ p ∈ w.tensorTbl, p.1 < w.nextId)

/-- Reachable-state invariant of a Sequential container: an empty model has
no output tensor and no synthetic node; a non-empty model has a last layer
with exactly one inbound node whose single output tensor is the model output,
a registered tensor entry for that output, and a synthetic top-level node
whose output metadata mirrors it. -/
def SeqWf (w : World) (s : Sequential) : Prop :=
  match s.layersL.getLast? with
  | none => s.outputs = [] ∧ s.inbound = []
  | some p => ∃ st n t,
      lookupLayer w p = some st ∧ st.inbound = [n] ∧ n.outputTensors = [t] ∧
      s.outputs = [t] ∧ (lookupTensor w t).isSome = true ∧
      ∃ n0 rs, s.inbound = n0 :: rs ∧ n0.outputTensors = [t] ∧
        n0.outputShapes = [shapeOf w t]

/-- Demonstration layer spec: a single-output Dense-like layer with a
declared batch shape. -/
def demoSpec : LayerSpec := ⟨"Dense", 7, 1, some 5, 1, 9, .plain⟩

/-- Demonstration arena holding one unconnected demo layer (handle 0). -/
def demoW0 : World := ⟨[(0, ⟨demoSpec, [], 0⟩)], [], 1⟩

/-- State after Sequential().add(denseLayer) in the demo arena. -/
def demoTrace1 : World × Sequential :=
  match Sequential.add demoW0 emptySeq 0 with
  | .ok p => p
  | .error _ => (demoW0, emptySeq)

/-- State after a subsequent build() — note compile() is never called. -/
def demoTrace2 : World × Sequential :=
  match Sequential.build demoTrace1.1 demoTrace1.2 with
  | .ok p => p
  | .error _ => demoTrace1

/-- State after calling build() a second time on the already built model. -/
def demoTrace3 : World × Sequential :=
  match Sequential.build demoTrace2.1 demoTrace2.2 with
  | .ok p => p
  | .error _ => demoTrace2

/-- Second demonstration layer spec (single-output, with batch shape). -/
def demoSpec2 : LayerSpec := ⟨"Act", 8, 1, some 5, 1, 4, .plain⟩

/-- Arena with two unconnected layers (handles 0 and 1). -/
def demoW2 : World := ⟨[(0, ⟨demoSpec, [], 0⟩), (1, ⟨demoSpec2, [], 0⟩)], [], 2⟩

/-- State after Sequential().add(layer 0) in the two-layer arena. -/
def demoTraceB1 : World × Sequential :=
  match Sequential.add demoW2 emptySeq 0 with
  | .ok p => p
  | .error _ => (demoW2, emptySeq)

/-!
Theorems. First a set of helper lemmas about association lists and the
world operations, then the claim theorems and their witnesses.
-/

theorem lookup_cons_self {β : Type} (k : Nat) (v : β) (l : List (Nat × β)) :
    List.lookup k ((k, v) :: l) = some v := by
  simp [List.lookup]

theorem lookup_cons_ne {β : Type} {k k' : Nat} (v : β) (l : List (Nat × β)) (h : k ≠ k') :
    List.lookup k ((k', v) :: l) = List.lookup k l := by
  have hb : (k == k') = false := beq_eq_false_iff_ne.mpr h
  simp [List.lookup, hb]

theorem mem_keys_of_lookup {β : Type} {k : Nat} {v : β} :
    ∀ {l : List (Nat × β)}, List.lookup k l = some v → k ∈ l.map Prod.fst := by
  intro l
  induction l with
  | nil => intro h; simp [List.lookup] at h
  | cons p tl ih =>
    intro h
    obtain ⟨a, b⟩ := p
    by_cases hk : k = a
    · simp [hk]
    · rw [lookup_cons_ne _ _ hk] at h
      simp [ih h]

theorem lookup_lt_of_wwf {w : World} {lid : Nat} {st : LayerSt}
    (hw : WWf w) (h : lookupLayer w lid = some st) : lid < w.nextId := by
  have hm := mem_keys_of_lookup h
  simp only [List.mem_map] at hm
  obtain ⟨p, hp, he⟩ := hm
  have := hw.1 p hp
  omega

theorem tensor_lt_of_wwf {w : World} {t : Nat} {ti : TInfo}
    (hw : WWf w) (h : lookupTensor w t = some ti) : t < w.nextId := by
  have hm := mem_keys_of_lookup h
  simp only [List.mem_map] at hm
  obtain ⟨p, hp, he⟩ := hm
  have := hw.2 p hp
  omega

theorem lookupLayer_updLayer_ne {w : World} {lid a : Nat} {f : LayerSt → LayerSt}
    (h : a ≠ lid) : lookupLayer (updLayer w lid f) a = lookupLayer w a := by
  show List.lookup a (w.layerTbl.map _) = List.lookup a w.layerTbl
  induction w.layerTbl with
  | nil => rfl
  | cons p tl ih =>
    obtain ⟨k, v⟩ := p
    by_cases hk : k = lid
    · rw [List.map_cons]
      have he : (if (k, v).1 = lid then ((k, v).1, f (k, v).2) else (k, v))
          = (k, f v) := by simp [hk]
      have hak : a ≠ k := fun e => h (e.trans hk)
      rw [he, lookup_cons_ne _ _ hak, lookup_cons_ne _ _ hak]
      exact ih
    · rw [List.map_cons]
      have he : (if (k, v).1 = lid then ((k, v).1, f (k, v).2) else (k, v))
          = (k, v) := by simp [hk]
      rw [he]
      by_cases ha : a = k
      · subst ha; rw [lookup_cons_self, lookup_cons_self]
      · rw [lookup_cons_ne _ _ ha, lookup_cons_ne _ _ ha]
        exact ih

theorem lookupLayer_updLayer_self {w : World} {lid : Nat} {st : LayerSt}
    {f : LayerSt → LayerSt} (h : lookupLayer w lid = some st) :
    lookupLayer (updLayer w lid f) lid = some (f st) := by
  show List.lookup lid (w.layerTbl.map _) = some (f st)
  revert h
  show List.lookup lid w.layerTbl = some st → _
  induction w.layerTbl with
  | nil => intro h; simp [List.lookup] at h
  | cons p tl ih =>
    intro h
    obtain ⟨k, v⟩ := p
    by_cases ha : lid = k
    · rw [← ha, lookup_cons_self] at h
      cases h
      rw [List.map_cons]
      have he : (if (k, st).1 = lid then ((k, st).1, f (k, st).2) else (k, st))
          = (k, f st) := by simp [ha.symm]
      rw [he, ← ha, lookup_cons_self]
    · rw [lookup_cons_ne _ _ ha] at h
      have hk : k ≠ lid := fun hkk => ha hkk.symm
      rw [List.map_cons]
      have he : (if (k, v).1 = lid then ((k, v).1, f (k, v).2) else (k, v))
          = (k, v) := by simp [hk]
      rw [he, lookup_cons_ne _ _ ha]
      exact ih h

theorem updLayer_tensorTbl (w : World) (lid : Nat) (f : LayerSt → LayerSt) :
    (updLayer w lid f).tensorTbl = w.tensorTbl := rfl

theorem updLayer_nextId (w : World) (lid : Nat) (f : LayerSt → LayerSt) :
    (updLayer w lid f).nextId = w.nextId := rfl

theorem updLayer_keys (w : World) (lid : Nat) (f : LayerSt → LayerSt) :
    (updLayer w lid f).layerTbl.map Prod.fst = w.layerTbl.map Prod.fst := by
  show (w.layerTbl.map _).map Prod.fst = _
  induction w.layerTbl with
  | nil => rfl
  | cons p tl ih =>
    obtain ⟨k, v⟩ := p
    by_cases hk : k = lid <;> simp [hk, ih]

theorem freshTensors_layerTbl (w : World) (n sh : Nat) (org : Option Nat) (src : List Nat) :
    (freshTensors w n sh org src).1.layerTbl = w.layerTbl := rfl

theorem callLayer_snd (w : World) (lid x : Nat) :
    (callLayer w lid x).2
      = (List.range (getSpec w lid).numOutputs).map (fun i => w.nextId + i) := rfl

theorem callLayer_tensorTbl (w : World) (lid x : Nat) :
    (callLayer w lid x).1.tensorTbl =
      ((List.range (getSpec w lid).numOutputs).map
        (fun i => (w.nextId + i,
          (⟨(getSpec w lid).outShape, some lid, srcInputsOf w x⟩ : TInfo)))).reverse
        ++ w.tensorTbl := by
  unfold callLayer
  cases horig : originOf w x <;> simp [horig, updLayer_tensorTbl, freshTensors]

theorem callLayer_nextId (w : World) (lid x : Nat) :
    (callLayer w lid x).1.nextId = w.nextId + (getSpec w lid).numOutputs := by
  unfold callLayer
  cases horig : originOf w x <;> simp [horig, updLayer_nextId, freshTensors]

theorem callLayer_lookup_self {w : World} {lid : Nat} {st : LayerSt} (x : Nat)
    (hl : lookupLayer w lid = some st) :
    ∃ ob, lookupLayer (callLayer w lid x).1 lid =
      some ⟨st.spec,
            st.inbound ++ [⟨[x], (List.range st.spec.numOutputs).map (fun i => w.nextId + i),
              ((List.range st.spec.numOutputs).map (fun i => w.nextId + i)).map
                (fun _ => st.spec.outShape)⟩],
            ob⟩ := by
  have hsp : getSpec w lid = st.spec := by simp [getSpec, hl]
  have hfr : lookupLayer (freshTensors w st.spec.numOutputs st.spec.outShape
      (some lid) (srcInputsOf w x)).1 lid = some st := hl
  have hsnd : (freshTensors w st.spec.numOutputs st.spec.outShape
      (some lid) (srcInputsOf w x)).2
      = (List.range st.spec.numOutputs).map (fun i => w.nextId + i) := rfl
  unfold callLayer
  cases horig : originOf w x with
  | none =>
    refine ⟨st.outboundCount, ?_⟩
    simp only [horig, hsp, hsnd]
    exact lookupLayer_updLayer_self hfr
  | some q =>
    by_cases hq : q = lid
    · subst hq
      refine ⟨st.outboundCount + 1, ?_⟩
      simp only [horig, hsp, hsnd]
      exact lookupLayer_updLayer_self (lookupLayer_updLayer_self hfr)
    · refine ⟨st.outboundCount, ?_⟩
      simp only [horig, hsp, hsnd]
      rw [lookupLayer_updLayer_ne (fun he => hq he.symm)]
      exact lookupLayer_updLayer_self hfr

theorem callLayer_lookup_ne {w : World} {lid a : Nat} {st0 : LayerSt} (x : Nat)
    (ha : a ≠ lid) (h : lookupLayer w a = some st0) :
    ∃ ob, lookupLayer (callLayer w lid x).1 a = some ⟨st0.spec, st0.inbound, ob⟩ := by
  have hfr : lookupLayer (freshTensors w (getSpec w lid).numOutputs (getSpec w lid).outShape
      (some lid) (srcInputsOf w x)).1 a = some st0 := h
  unfold callLayer
  cases horig : originOf w x with
  | none =>
    refine ⟨st0.outboundCount, ?_⟩
    simp only [horig]
    rw [lookupLayer_updLayer_ne ha, hfr]
  | some q =>
    by_cases hq : a = q
    · subst hq
      refine ⟨st0.outboundCount + 1, ?_⟩
      simp only [horig]
      have h1 : lookupLayer (updLayer (freshTensors w (getSpec w lid).numOutputs
          (getSpec w lid).outShape (some lid) (srcInputsOf w x)).1 lid
          (fun st1 => { st1 with inbound := st1.inbound ++
            [⟨[x], (freshTensors w (getSpec w lid).numOutputs (getSpec w lid).outShape
                (some lid) (srcInputsOf w x)).2,
              ((freshTensors w (getSpec w lid).numOutputs (getSpec w lid).outShape
                (some lid) (srcInputsOf w x)).2).map
                (fun _ => (getSpec w lid).outShape)⟩] })) a = some st0 := by
        rw [lookupLayer_updLayer_ne ha]
        exact hfr
      exact lookupLayer_updLayer_self h1
    · refine ⟨st0.outboundCount, ?_⟩
      simp only [horig]
      rw [lookupLayer_updLayer_ne hq, lookupLayer_updLayer_ne ha, hfr]

theorem mkInput_lookup {w : World} {lid : Nat} {st : LayerSt} (b d : Nat)
    (hlid : lid < w.nextId) (hl : lookupLayer w lid = some st) :
    lookupLayer (mkInput w b d).1 lid = some st := by
  show List.lookup lid (mkInput w b d).1.layerTbl = some st
  have he : (mkInput w b d).1.layerTbl
      = (w.nextId, ⟨⟨"InputLayer", 0, 1, some b, d, b, .inputL⟩,
          [⟨[w.nextId + 1], [w.nextId + 1], [b]⟩], 0⟩) :: w.layerTbl := rfl
  rw [he, lookup_cons_ne _ _ (by omega)]
  exact hl

/-- C4: load_model on an archive with no model topology record fails with the
ValidationKind error (ValueError, no model found in config file), while
load_model with compile=True on an archive that has a topology record but no
training-config record returns the reconstructed uncompiled model with a
warning and never raises for the missing record. -/
theorem c4_load_model_missing_records
    (h5 : Bool) (des : Nat → Except PyErr Nat) (loadW : Nat → Except PyErr Unit)
    (cf : Nat → Nat → Except PyErr Unit) (sow : Nat → Except PyErr Unit)
    (hok : h5 = true) :
    (∀ (f : Archive) (cflag : Bool), f.modelConfig = none →
      load_model h5 des loadW cf sow f cflag = .error (.valueError noModelFoundMsg)) ∧
    (∀ (f : Archive) (c m : Nat), f.modelConfig = some c → f.trainingConfig = none →
      des c = .ok m → loadW m = .ok () →
      load_model h5 des loadW cf sow f true = .ok (m, false, [noTrainingConfigMsg])) := by
  subst hok
  constructor
  · intro f cflag hc
    simp [load_model, hc]
  · intro f c m hc ht hd hl
    simp [load_model, hc, ht, hd, hl]

/-- Closed witness for c4_load_model_missing_records. -/
theorem c4_witness :
    load_model true (fun c => .ok c) (fun _ => .ok ()) (fun _ _ => .ok ()) (fun _ => .ok ())
        ⟨none, none, false⟩ true = .error (.valueError noModelFoundMsg) ∧
    load_model true (fun c => .ok c) (fun _ => .ok ()) (fun _ _ => .ok ()) (fun _ => .ok ())
        ⟨some 3, none, false⟩ true = .ok (3, false, [noTrainingConfigMsg]) :=
  ⟨(c4_load_model_missing_records true (fun c => .ok c) (fun _ => .ok ()) (fun _ _ => .ok ())
      (fun _ => .ok ()) rfl).1 ⟨none, none, false⟩ true rfl,
   (c4_load_model_missing_records true (fun c => .ok c) (fun _ => .ok ()) (fun _ _ => .ok ())
      (fun _ => .ok ()) rfl).2 ⟨some 3, none, false⟩ 3 3 rfl rfl rfl rfl⟩

theorem cloneLayers_tensorTbl (w : World) : ∀ ls : List Nat,
    (cloneLayers w ls).1.tensorTbl = w.tensorTbl := by
  intro ls
  induction ls generalizing w with
  | nil => rfl
  | cons l tl ih => simpa [cloneLayers, cloneLayer] using ih _

/-- C6: cloning a Sequential model with a replacement input list not of
length one fails with the CardinalityKind error, and cloning it with a single
graph tensor whose originating layer is not an InputLayer fails with the
UnsupportedKind error. -/
theorem c6_clone_sequential_errors (w : World) (s : Sequential) :
    (∀ ts : List Nat, ts.length ≠ 1 →
      _clone_sequential_model w s (some ts) = .error (.valueError cloneCardMsg)) ∧
    (∀ (x o : Nat) (sto : LayerSt),
      originOf (cloneLayers w s.layersL).1 x = some o →
      lookupLayer (cloneLayers w s.layersL).1 o = some sto →
      sto.spec.kind ≠ .inputL →
      _clone_sequential_model w s (some [x]) = .error (.valueError cloneOriginMsg)) := by
  constructor
  · intro ts hlen
    simp [_clone_sequential_model, hlen]
  · intro x o sto ho hl hk
    have hspec : getSpec (cloneLayers w s.layersL).1 o = sto.spec := by
      simp [getSpec, hl]
    cases hsk : sto.spec.kind with
    | plain => simp [_clone_sequential_model, ho, hspec, hsk]
    | inputL => exact absurd hsk hk
    | modelK subs => simp [_clone_sequential_model, ho, hspec, hsk]

/-- Closed witness for c6_clone_sequential_errors. -/
theorem c6_witness :
    _clone_sequential_model
        ⟨[(0, ⟨⟨"Dense", 7, 1, some 5, 1, 9, .plain⟩, [], 0⟩)],
         [(50, ⟨9, some 0, [50]⟩)], 51⟩
        ⟨[0], none, [], [50], [], false, false⟩ (some [50, 50])
      = .error (.valueError cloneCardMsg) ∧
    _clone_sequential_model
        ⟨[(0, ⟨⟨"Dense", 7, 1, some 5, 1, 9, .plain⟩, [], 0⟩)],
         [(50, ⟨9, some 0, [50]⟩)], 51⟩
        ⟨[0], none, [], [50], [], false, false⟩ (some [50])
      = .error (.valueError cloneOriginMsg) :=
  ⟨(c6_clone_sequential_errors _ _).1 [50, 50] (by decide),
   (c6_clone_sequential_errors _ _).2 50 0 ⟨⟨"Dense", 7, 1, some 5, 1, 9, .plain⟩, [], 0⟩
     rfl rfl (fun h => LKind.noConfusion h)⟩

theorem mkInput_x (w : World) (b d : Nat) : (mkInput w b d).2.2 = w.nextId + 1 := rfl

theorem mkInput_nextId (w : World) (b d : Nat) : (mkInput w b d).1.nextId = w.nextId + 2 := rfl

theorem mkInput_tensorTbl (w : World) (b d : Nat) :
    (mkInput w b d).1.tensorTbl
      = (w.nextId + 1, ⟨b, some w.nextId, [w.nextId + 1]⟩) :: w.tensorTbl := rfl

/-- Sequential.add on an empty model with a plain, shape-declaring layer whose
invocation yields a number of outputs other than one stops at the
single-output check of models.py lines 502-506 (a ValueError). -/
theorem add_first_plain_err (w : World) (s : Sequential) (lid : Nat) (st : LayerSt) (b : Nat)
    (hw : WWf w) (hl : lookupLayer w lid = some st) (hk : st.spec.kind = .plain)
    (hb : st.spec.batchShape = some b) (hout : s.outputs = [])
    (hm : st.spec.numOutputs ≠ 1) :
    Sequential.add w s lid = .error (.valueError singleOutputMsg) := by
  have hlid : lid < w.nextId := lookup_lt_of_wwf hw hl
  have hWI : lookupLayer (mkInput w b st.spec.dtype).1 lid = some st :=
    mkInput_lookup b st.spec.dtype hlid hl
  obtain ⟨ob, hLU⟩ := callLayer_lookup_self (mkInput w b st.spec.dtype).2.2 hWI
  simp only [Sequential.add, hl, hout, hk, hb]
  rw [hLU]
  simp [hm]

/-- Sequential.add on an empty model with a plain single-output layer that
declares a batch shape: the synthesized input layer gets handle w.nextId, the
placeholder tensor w.nextId + 1, the layer output tensor w.nextId + 2, and
the synthetic top-level node is appended. -/
theorem add_first_plain_ok (w : World) (s : Sequential) (lid : Nat) (st : LayerSt) (b : Nat)
    (hw : WWf w) (hl : lookupLayer w lid = some st) (hk : st.spec.kind = .plain)
    (hb : st.spec.batchShape = some b) (hout : s.outputs = [])
    (h1 : st.spec.numOutputs = 1) :
    Sequential.add w s lid = .ok ((callLayer (mkInput w b st.spec.dtype).1 lid (w.nextId + 1)).1,
      { s with outputs := [w.nextId + 2], inputs := [w.nextId + 1],
               inbound := s.inbound ++ [⟨[w.nextId + 1], [w.nextId + 2], [st.spec.outShape]⟩],
               layersL := s.layersL ++ [lid], built := false }) := by
  have hlid : lid < w.nextId := lookup_lt_of_wwf hw hl
  have hWI : lookupLayer (mkInput w b st.spec.dtype).1 lid = some st :=
    mkInput_lookup b st.spec.dtype hlid hl
  obtain ⟨ob, hLU⟩ := callLayer_lookup_self (mkInput w b st.spec.dtype).2.2 hWI
  rw [mkInput_x, mkInput_nextId] at hLU
  have hspWI : getSpec (mkInput w b st.spec.dtype).1 lid = st.spec := by simp [getSpec, hWI]
  have htbl := callLayer_tensorTbl (mkInput w b st.spec.dtype).1 lid (w.nextId + 1)
  rw [hspWI, h1, mkInput_nextId] at htbl
  have hsrcWI : srcInputsOf (mkInput w b st.spec.dtype).1 (w.nextId + 1) = [w.nextId + 1] := by
    simp [srcInputsOf, lookupTensor, mkInput_tensorTbl, lookup_cons_self]
  rw [hsrcWI] at htbl
  have hr1 : List.range 1 = [0] := rfl
  simp only [hr1, List.map_cons, List.map_nil, List.reverse_cons, List.reverse_nil,
    List.nil_append, List.singleton_append, Nat.add_zero] at htbl
  have hsrc : srcInputsOf (callLayer (mkInput w b st.spec.dtype).1 lid (w.nextId + 1)).1
      (w.nextId + 2) = [w.nextId + 1] := by
    simp [srcInputsOf, lookupTensor, htbl, lookup_cons_self]
  have hshape : shapeOf (callLayer (mkInput w b st.spec.dtype).1 lid (w.nextId + 1)).1
      (w.nextId + 2) = st.spec.outShape := by
    simp [shapeOf, lookupTensor, htbl, lookup_cons_self]
  simp only [Sequential.add, hl, hout, hk, hb, mkInput_x]
  rw [hLU]
  simp [h1, hr1, hsrc, hshape]

/-- Sequential.add on a non-empty model with a layer whose invocation yields
a number of outputs other than one stops at the list-result check of
models.py lines 522-526 (a TypeError). -/
theorem add_subsequent_err (w : World) (s : Sequential) (lid : Nat) (st : LayerSt)
    (t : Nat) (tl : List Nat)
    (hl : lookupLayer w lid = some st) (hout : s.outputs = t :: tl)
    (hm : st.spec.numOutputs ≠ 1) :
    Sequential.add w s lid = .error (.typeError singleOutputMsg) := by
  have hlen : (callLayer w lid t).2.length = st.spec.numOutputs := by
    rw [callLayer_snd]; simp [getSpec, hl]
  simp only [Sequential.add, hl, hout]
  rw [if_pos (by rw [hlen]; exact hm)]

/-- Sequential.add on a non-empty model with a single-output layer: the layer
is invoked on the current output, the new output tensor is w.nextId, and the
synthetic node metadata is updated in place. -/
theorem add_subsequent_ok (w : World) (s : Sequential) (lid : Nat) (st : LayerSt)
    (t : Nat) (tl : List Nat) (n0 : LNode) (rest : List LNode)
    (hl : lookupLayer w lid = some st) (hout : s.outputs = t :: tl)
    (hin : s.inbound = n0 :: rest) (h1 : st.spec.numOutputs = 1) :
    Sequential.add w s lid = .ok ((callLayer w lid t).1,
      { s with outputs := [w.nextId],
               inbound := { n0 with
                            outputTensors := [w.nextId],
                            outputShapes := [st.spec.outShape] } :: rest,
               layersL := s.layersL ++ [lid], built := false }) := by
  have hsp : getSpec w lid = st.spec := by simp [getSpec, hl]
  have htbl := callLayer_tensorTbl w lid t
  rw [hsp, h1] at htbl
  have hr1 : List.range 1 = [0] := rfl
  simp only [hr1, List.map_cons, List.map_nil, List.reverse_cons, List.reverse_nil,
    List.nil_append, List.singleton_append, Nat.add_zero] at htbl
  have hshape : shapeOf (callLayer w lid t).1 w.nextId = st.spec.outShape := by
    simp [shapeOf, lookupTensor, htbl, lookup_cons_self]
  simp only [Sequential.add, hl, hout, hin]
  simp [callLayer_snd, hsp, h1, hr1, hshape]

/-- Sequential.add on an empty model with an InputLayer carrying its creation
node: no input synthesis happens, no new objects are created, and the
InputLayer output becomes the model output. -/
theorem add_first_input_ok (w : World) (s : Sequential) (lid : Nat) (st : LayerSt)
    (n : LNode) (t : Nat)
    (hl : lookupLayer w lid = some st) (hk : st.spec.kind = .inputL)
    (hin : st.inbound = [n]) (hnt : n.outputTensors = [t]) (hout : s.outputs = []) :
    Sequential.add w s lid = .ok (w,
      { s with outputs := [t], inputs := srcInputsOf w t,
               inbound := s.inbound ++ [⟨srcInputsOf w t, [t], [shapeOf w t]⟩],
               layersL := s.layersL ++ [lid], built := false }) := by
  simp only [Sequential.add, hl, hout, hk]
  simp [hin, hnt]

/-- C2: a plain layer with a declared input shape whose invocation produces
two or more output tensors is rejected by Sequential.add with the
single-output ShapeKind error in every position: as the first layer (via the
ValueError of lines 502-506) and as a subsequent layer (via the TypeError of
lines 522-526); the message is the same at both raise sites. -/
theorem c2_multi_output_rejected (w : World) (s : Sequential) (lid : Nat) (st : LayerSt)
    (b : Nat) (hw : WWf w) (hl : lookupLayer w lid = some st)
    (hk : st.spec.kind = .plain) (hb : st.spec.batchShape = some b)
    (hm : 2 ≤ st.spec.numOutputs) :
    ∃ e : PyErr, Sequential.add w s lid = .error e ∧ e.msg = singleOutputMsg := by
  cases hout : s.outputs with
  | nil =>
    exact ⟨.valueError singleOutputMsg,
      add_first_plain_err w s lid st b hw hl hk hb hout (by omega), rfl⟩
  | cons t tl =>
    exact ⟨.typeError singleOutputMsg,
      add_subsequent_err w s lid st t tl hl hout (by omega), rfl⟩

/-- Closed witness for c2_multi_output_rejected. -/
theorem c2_witness :
    ∃ e : PyErr,
      Sequential.add ⟨[(0, ⟨⟨"Split", 3, 2, some 5, 1, 9, .plain⟩, [], 0⟩)], [], 1⟩
        emptySeq 0 = .error e ∧ e.msg = singleOutputMsg :=
  c2_multi_output_rejected ⟨[(0, ⟨⟨"Split", 3, 2, some 5, 1, 9, .plain⟩, [], 0⟩)], [], 1⟩
    emptySeq 0 ⟨⟨"Split", 3, 2, some 5, 1, 9, .plain⟩, [], 0⟩ 5
    ⟨fun p hp => by simp at hp; subst hp; decide, fun p hp => by simp at hp⟩
    rfl rfl rfl (by decide)

/-- C7 counterexample: a Sequential that was built (build() called directly)
but never compiled passes the guard of every training and evaluation entry
point, so invoking them before compile does not fail with the
PreconditionKind error the claim requires. -/
theorem c7_counterexample :
    Sequential.add demoW0 emptySeq 0 = .ok demoTrace1 ∧
    Sequential.build demoTrace1.1 demoTrace1.2 = .ok demoTrace2 ∧
    demoTrace2.2.built = true ∧ demoTrace2.2.compiledFlag = false ∧
    Sequential.fit demoTrace2.2 = .ok () ∧
    Sequential.evaluate demoTrace2.2 = .ok () ∧
    Sequential.train_on_batch demoTrace2.2 = .ok () ∧
    Sequential.test_on_batch demoTrace2.2 = .ok () ∧
    Sequential.fit_generator demoTrace2.2 = .ok () ∧
    Sequential.evaluate_generator demoTrace2.2 = .ok () :=
  ⟨rfl, rfl, rfl, rfl, rfl, rfl, rfl, rfl, rfl, rfl⟩

/-- C7 amended: each of the six training and evaluation entry points fails
with the RuntimeError (PreconditionKind) saying the model needs to be
compiled exactly when the model is not built; compile() triggers build(), so
an un-built model is necessarily an un-compiled one, but a direct build()
without compile() bypasses the guard. -/
theorem c7_unbuilt_entry_points_fail (s : Sequential) (h : s.built = false) :
    Sequential.fit s = .error (.runtimeError needsCompileMsg) ∧
    Sequential.evaluate s = .error (.runtimeError needsCompileMsg) ∧
    Sequential.train_on_batch s = .error (.runtimeError needsCompileMsg) ∧
    Sequential.test_on_batch s = .error (.runtimeError needsCompileMsg) ∧
    Sequential.fit_generator s = .error (.runtimeError needsCompileMsg) ∧
    Sequential.evaluate_generator s = .error (.runtimeError needsCompileMsg) := by
  simp [Sequential.fit, Sequential.evaluate, Sequential.train_on_batch,
    Sequential.test_on_batch, Sequential.fit_generator, Sequential.evaluate_generator, h]

/-- Closed witness for c7_unbuilt_entry_points_fail. -/
theorem c7_witness :
    Sequential.fit emptySeq = .error (.runtimeError needsCompileMsg) ∧
    Sequential.evaluate emptySeq = .error (.runtimeError needsCompileMsg) ∧
    Sequential.train_on_batch emptySeq = .error (.runtimeError needsCompileMsg) ∧
    Sequential.test_on_batch emptySeq = .error (.runtimeError needsCompileMsg) ∧
    Sequential.fit_generator emptySeq = .error (.runtimeError needsCompileMsg) ∧
    Sequential.evaluate_generator emptySeq = .error (.runtimeError needsCompileMsg) :=
  c7_unbuilt_entry_points_fail emptySeq rfl

/-- C8 counterexample: build() has no built-guard, so calling build() again
on an already built, not invalidated Sequential is not a no-op: it replaces
the internal Model handle with a freshly constructed one. -/
theorem c8_counterexample :
    demoTrace2.2.built = true ∧
    Sequential.build demoTrace2.1 demoTrace2.2 = .ok demoTrace3 ∧
    demoTrace2.2.modelRef = some 4 ∧ demoTrace3.2.modelRef = some 5 ∧
    demoTrace3.2.modelRef ≠ demoTrace2.2.modelRef :=
  ⟨rfl, rfl, rfl, rfl, by decide⟩

/-- C8 amended: build on an empty Sequential fails with the ConfigKind
TypeError; the built-guarded call pattern used by the delegating entry points
(if not built, build) is a no-op on an already built model; and every direct
build() call installs a fresh internal Model handle, replacing the previous
one. -/
theorem c8_build_contract :
    (∀ (w : World) (s : Sequential), s.inputs = [] ∨ s.outputs = [] →
      Sequential.build w s = .error (.typeError emptyBuildMsg)) ∧
    (∀ (w : World) (s : Sequential), s.built = true →
      Sequential.forceBuild w s = .ok (w, s)) ∧
    (∀ (w : World) (s : Sequential) (w' : World) (s' : Sequential),
      Sequential.build w s = .ok (w', s') →
      s'.modelRef = some w.nextId ∧ s'.built = true ∧ w'.nextId = w.nextId + 1) := by
  refine ⟨?_, ?_, ?_⟩
  · intro w s h
    unfold Sequential.build
    rw [if_pos h]
  · intro w s h
    simp [Sequential.forceBuild, h]
  · intro w s w' s' h
    unfold Sequential.build at h
    by_cases hc : s.inputs = [] ∨ s.outputs = []
    · rw [if_pos hc] at h; cases h
    · rw [if_neg hc] at h
      injection h with h2
      cases h2
      exact ⟨rfl, rfl, rfl⟩

/-- Closed witness for c8_build_contract. -/
theorem c8_witness :
    Sequential.build ⟨[], [], 0⟩ emptySeq = .error (.typeError emptyBuildMsg) ∧
    Sequential.forceBuild ⟨[], [], 0⟩ { emptySeq with built := true }
      = .ok (⟨[], [], 0⟩, { emptySeq with built := true }) ∧
    (({ emptySeq with inputs := [1], outputs := [2], modelRef := some 5, built := true }
        : Sequential).modelRef = some (⟨[], [], 5⟩ : World).nextId ∧
      ({ emptySeq with inputs := [1], outputs := [2], modelRef := some 5, built := true }
        : Sequential).built = true ∧
      (⟨[], [], 6⟩ : World).nextId = (⟨[], [], 5⟩ : World).nextId + 1) :=
  ⟨c8_build_contract.1 ⟨[], [], 0⟩ emptySeq (Or.inl rfl),
   c8_build_contract.2.1 ⟨[], [], 0⟩ { emptySeq with built := true } rfl,
   c8_build_contract.2.2 ⟨[], [], 5⟩ { emptySeq with inputs := [1], outputs := [2] }
     ⟨[], [], 6⟩ { emptySeq with inputs := [1], outputs := [2], modelRef := some 5, built := true }
     rfl⟩

/-- The shape-inference walk reaches the deepest first layer whenever every
model on the leftmost spine is non-empty and the deepest layer declares its
batch shape. -/
theorem descendFirst_good : ∀ (l : NLayer) (b d : Nat),
    goodSpine l → deepestFirst l = (some b, d) → descendFirst l = .ok (b, d)
  | .plain bs dt, b, d, _, hd => by
    have hbs : bs = some b ∧ dt = d := by simpa [deepestFirst] using hd
    obtain ⟨h1, h2⟩ := hbs
    subst h1; subst h2
    rfl
  | .modelL [], _, _, hg, _ => by simp [goodSpine] at hg
  | .modelL (s :: rest), b, d, hg, hd => descendFirst_good s b d hg hd

/-- C9 counterexample: adding, as first layer, a nested model whose own first
layer is an empty model makes Sequential.add fail with the raw IndexError of
the unguarded layers[0] access in the descent loop (models.py lines 481-482),
not with the ConfigKind ValueError reserved for a top-level empty model. -/
theorem c9_counterexample :
    Sequential.add ⟨[(0, ⟨⟨"Wrap", 0, 1, none, 0, 0, .modelK [NLayer.modelL []]⟩, [], 0⟩)], [], 1⟩
      emptySeq 0 = .error (.indexError indexOutOfRangeMsg) ∧
    PyErr.indexError indexOutOfRangeMsg ≠ PyErr.valueError emptyModelMsg :=
  ⟨rfl, by decide⟩

/-- C9 amended: when the first layer added to a Sequential is a nested model,
add infers batch shape and dtype by walking to the deepest first layer; the
ConfigKind error (cannot add an empty model) is raised only when the model
passed to add is itself empty, while an empty model at a deeper nesting level
surfaces as an IndexError; when every nested model on the leftmost spine is
non-empty the walk succeeds and returns the deepest declared batch shape and
dtype. -/
theorem c9_nested_inference :
    (∀ (w : World) (s : Sequential) (lid : Nat) (st : LayerSt),
      lookupLayer w lid = some st → st.spec.kind = .modelK [] → s.outputs = [] →
      Sequential.add w s lid = .error (.valueError emptyModelMsg)) ∧
    (∀ (l : NLayer) (b d : Nat), goodSpine l → deepestFirst l = (some b, d) →
      descendFirst l = .ok (b, d)) := by
  constructor
  · intro w s lid st hl hk hout
    simp [Sequential.add, hl, hout, hk, nestedBatchShape]
  · exact fun l b d => descendFirst_good l b d

/-- Closed witness for c9_nested_inference. -/
theorem c9_witness :
    Sequential.add ⟨[(0, ⟨⟨"Wrap2", 0, 1, none, 0, 0, .modelK []⟩, [], 0⟩)], [], 1⟩
      emptySeq 0 = .error (.valueError emptyModelMsg) ∧
    descendFirst (NLayer.modelL [NLayer.plain (some 5) 7]) = .ok (5, 7) :=
  ⟨c9_nested_inference.1 ⟨[(0, ⟨⟨"Wrap2", 0, 1, none, 0, 0, .modelK []⟩, [], 0⟩)], [], 1⟩
      emptySeq 0 ⟨⟨"Wrap2", 0, 1, none, 0, 0, .modelK []⟩, [], 0⟩ rfl rfl rfl,
   c9_nested_inference.2 (NLayer.modelL [NLayer.plain (some 5) 7]) 5 7 rfl rfl⟩

/-- C3: for a well-formed Sequential state and a valid fresh single-output
layer, add followed by pop succeeds and restores the observable state exactly:
the layer sequence, the output tensor list, and the synthetic top-level Node
metadata are all as before the add. -/
theorem c3_add_pop_roundtrip (w : World) (s : Sequential) (lid : Nat) (st : LayerSt) (b : Nat)
    (hw : WWf w) (hwf : SeqWf w s)
    (hl : lookupLayer w lid = some st) (hk : st.spec.kind = .plain)
    (hb : st.spec.batchShape = some b) (h1 : st.spec.numOutputs = 1)
    (hfresh : st.inbound = []) :
    ∃ (w1 : World) (s1 : Sequential) (w2 : World) (s2 : Sequential),
      Sequential.add w s lid = .ok (w1, s1) ∧
      Sequential.pop w1 s1 = .ok (w2, s2) ∧
      s2.layersL = s.layersL ∧ s2.outputs = s.outputs ∧ s2.inbound = s.inbound := by
  cases hg : s.layersL.getLast? with
  | none =>
    have hLL : s.layersL = [] := by
      cases hll : s.layersL with
      | nil => rfl
      | cons x t => rw [hll] at hg; simp at hg
    rw [SeqWf, hg] at hwf
    obtain ⟨hout, hinb⟩ := hwf
    have hadd := add_first_plain_ok w s lid st b hw hl hk hb hout h1
    have hpop : Sequential.pop (callLayer (mkInput w b st.spec.dtype).1 lid (w.nextId + 1)).1
        { s with outputs := [w.nextId + 2], inputs := [w.nextId + 1],
                 inbound := s.inbound ++ [⟨[w.nextId + 1], [w.nextId + 2], [st.spec.outShape]⟩],
                 layersL := s.layersL ++ [lid], built := false }
        = .ok ((callLayer (mkInput w b st.spec.dtype).1 lid (w.nextId + 1)).1,
          { s with outputs := [], inputs := [w.nextId + 1],
                   inbound := [], layersL := [], built := false }) := by
      simp [Sequential.pop, hLL, hinb]
    exact ⟨_, _, _, _, hadd, hpop, by simp [hLL], by simp [hout], by simp [hinb]⟩
  | some p =>
    rw [SeqWf, hg] at hwf
    obtain ⟨stP, n, t, hlp, hpin, hnt, hout, htens, n0, rs, hin, hn0t, hn0s⟩ := hwf
    have hplid : p ≠ lid := by
      intro he
      rw [he, hl] at hlp
      cases hlp
      rw [hfresh] at hpin
      cases hpin
    obtain ⟨ti, hti⟩ := Option.isSome_iff_exists.mp htens
    have htlt : t < w.nextId := tensor_lt_of_wwf hw hti
    have hadd := add_subsequent_ok w s lid st t [] n0 rs hl hout hin h1
    obtain ⟨ob2, hWP⟩ := @callLayer_lookup_ne _ lid _ _ t hplid hlp
    have hsp : getSpec w lid = st.spec := by simp [getSpec, hl]
    have htbl := callLayer_tensorTbl w lid t
    rw [hsp, h1] at htbl
    have hr1 : List.range 1 = [0] := rfl
    simp only [hr1, List.map_cons, List.map_nil, List.reverse_cons, List.reverse_nil,
      List.nil_append, List.singleton_append, Nat.add_zero] at htbl
    have hshp : shapeOf (updLayer (callLayer w lid t).1 p
        (fun st1 => { st1 with outboundCount := 0 })) t = shapeOf w t := by
      simp only [shapeOf, lookupTensor, updLayer_tensorTbl, htbl]
      rw [lookup_cons_ne _ _ (by omega)]
    have hlu2 := lookupLayer_updLayer_self
      (f := fun st1 => { st1 with outboundCount := 0 }) hWP
    have hpop : Sequential.pop (callLayer w lid t).1
        { s with outputs := [w.nextId],
                 inbound := { n0 with
                              outputTensors := [w.nextId],
                              outputShapes := [st.spec.outShape] } :: rs,
                 layersL := s.layersL ++ [lid], built := false }
        = .ok (updLayer (callLayer w lid t).1 p (fun st1 => { st1 with outboundCount := 0 }),
          { s with outputs := [t],
                   inbound := ⟨n0.inputTensors, [t], [shapeOf w t]⟩ :: rs,
                   layersL := s.layersL, built := false }) := by
      simp only [Sequential.pop]
      rw [show (s.layersL ++ [lid]).getLast? = some lid by simp]
      rw [show (s.layersL ++ [lid]).dropLast = s.layersL by simp]
      rw [hg]
      simp only [layerOutput, hlu2, Option.map_some, Option.getD_some, hpin]
      simp [hnt, hshp]
    refine ⟨_, _, _, _, hadd, hpop, by simp, by simp [hout], ?_⟩
    rw [hin]
    show (⟨n0.inputTensors, [t], [shapeOf w t]⟩ : LNode) :: rs = n0 :: rs
    obtain ⟨ni, no, ns⟩ := n0
    simp only at hn0t hn0s
    simp [hn0t, hn0s]


/-- Closed witness for c3_add_pop_roundtrip. -/
theorem c3_witness :
    ∃ (w1 : World) (s1 : Sequential) (w2 : World) (s2 : Sequential),
      Sequential.add demoTraceB1.1 demoTraceB1.2 1 = .ok (w1, s1) ∧
      Sequential.pop w1 s1 = .ok (w2, s2) ∧
      s2.layersL = demoTraceB1.2.layersL ∧ s2.outputs = demoTraceB1.2.outputs ∧
      s2.inbound = demoTraceB1.2.inbound :=
  c3_add_pop_roundtrip demoTraceB1.1 demoTraceB1.2 1 ⟨demoSpec2, [], 0⟩ 5
    (by unfold WWf; exact ⟨by decide, by decide⟩)
    ⟨_, _, _, rfl, rfl, rfl, rfl, rfl, _, _, rfl, rfl, rfl⟩
    rfl rfl rfl rfl rfl

theorem lookup_isSome_iff {β : Type} (k : Nat) :
    ∀ (l : List (Nat × β)), (List.lookup k l).isSome = true ↔ k ∈ l.map Prod.fst := by
  intro l
  induction l with
  | nil => simp [List.lookup]
  | cons p tl ih =>
    obtain ⟨a, b⟩ := p
    by_cases hk : k = a
    · subst hk; simp [lookup_cons_self]
    · rw [lookup_cons_ne _ _ hk]
      simp [ih, hk]

theorem callLayer_keys (w : World) (lid x : Nat) :
    (callLayer w lid x).1.layerTbl.map Prod.fst = w.layerTbl.map Prod.fst := by
  unfold callLayer
  cases horig : originOf w x <;>
    simp [horig, updLayer_keys, freshTensors_layerTbl]

theorem mkInput_wwf {w : World} (b d : Nat) (hw : WWf w) : WWf (mkInput w b d).1 := by
  constructor
  · intro q hq
    rw [mkInput_nextId]
    have he : (mkInput w b d).1.layerTbl
        = (w.nextId, ⟨⟨"InputLayer", 0, 1, some b, d, b, .inputL⟩,
            [⟨[w.nextId + 1], [w.nextId + 1], [b]⟩], 0⟩) :: w.layerTbl := rfl
    rw [he] at hq
    rcases List.mem_cons.mp hq with rfl | hq
    · show w.nextId < w.nextId + 2
      omega
    · have := hw.1 q hq
      omega
  · intro q hq
    rw [mkInput_nextId]
    rw [mkInput_tensorTbl] at hq
    rcases List.mem_cons.mp hq with rfl | hq
    · show w.nextId + 1 < w.nextId + 2
      omega
    · have := hw.2 q hq
      omega

theorem callLayer_wwf {w : World} (lid x : Nat) (hw : WWf w) : WWf (callLayer w lid x).1 := by
  constructor
  · intro p hp
    rw [callLayer_nextId]
    have hkm : p.1 ∈ (callLayer w lid x).1.layerTbl.map Prod.fst := List.mem_map_of_mem _ hp
    rw [callLayer_keys] at hkm
    simp only [List.mem_map] at hkm
    obtain ⟨q, hq, he⟩ := hkm
    have := hw.1 q hq
    omega
  · intro p hp
    rw [callLayer_nextId]
    rw [callLayer_tensorTbl] at hp
    rcases List.mem_append.mp hp with hp | hp
    · rw [List.mem_reverse] at hp
      simp only [List.mem_map, List.mem_range] at hp
      obtain ⟨i, hi, he⟩ := hp
      subst he
      simp only []
      omega
    · have := hw.2 p hp; omega

/-- One add step in a replay: adding a fresh, unconnected single-output layer
to a non-empty well-formed Sequential succeeds, appends the layer, and keeps
the invariants; every other layer keeps its spec and inbound nodes. -/
theorem add_fresh_step (w : World) (s : Sequential) (lid p : Nat) (stl : LayerSt)
    (hw : WWf w) (hwf : SeqWf w s) (hg : s.layersL.getLast? = some p)
    (hll : lookupLayer w lid = some stl) (hfr : stl.inbound = [])
    (h1 : stl.spec.numOutputs = 1) :
    ∃ (w' : World) (s' : Sequential), Sequential.add w s lid = .ok (w', s') ∧
      s'.layersL = s.layersL ++ [lid] ∧ WWf w' ∧ SeqWf w' s' ∧
      (∀ a, (lookupLayer w a).isSome = true → getSpec w' a = getSpec w a) ∧
      (∀ a, (lookupLayer w a).isSome = true → (lookupLayer w' a).isSome = true) ∧
      (∀ a sta, a ≠ lid → lookupLayer w a = some sta →
        ∃ ob, lookupLayer w' a = some ⟨sta.spec, sta.inbound, ob⟩) ∧
      w'.tensorTbl = (w.nextId, ⟨stl.spec.outShape, some lid,
        srcInputsOf w (s.outputs.headD 0)⟩) :: w.tensorTbl ∧
      w'.nextId = w.nextId + 1 := by
  rw [SeqWf, hg] at hwf
  obtain ⟨stP, n, t, hlp, hpin, hnt, hout, htens, n0, rs, hin, hn0t, hn0s⟩ := hwf
  have hadd := add_subsequent_ok w s lid stl t [] n0 rs hll hout hin h1
  obtain ⟨ob, hlook⟩ := @callLayer_lookup_self _ lid _ t hll
  have hsp : getSpec w lid = stl.spec := by simp [getSpec, hll]
  have htbl := callLayer_tensorTbl w lid t
  rw [hsp, h1] at htbl
  have hr1 : List.range 1 = [0] := rfl
  simp only [hr1, List.map_cons, List.map_nil, List.reverse_cons, List.reverse_nil,
    List.nil_append, List.singleton_append, Nat.add_zero] at htbl
  refine ⟨_, _, hadd, rfl, callLayer_wwf lid t hw, ?_, ?_, ?_, ?_, ?_, ?_⟩
  · -- SeqWf of the result
    rw [SeqWf]
    rw [show (s.layersL ++ [lid]).getLast? = some lid from by simp]
    refine ⟨⟨stl.spec, stl.inbound ++ [⟨[t], (List.range stl.spec.numOutputs).map
        (fun i => w.nextId + i), ((List.range stl.spec.numOutputs).map
        (fun i => w.nextId + i)).map (fun _ => stl.spec.outShape)⟩], ob⟩,
      ⟨[t], (List.range stl.spec.numOutputs).map (fun i => w.nextId + i),
        ((List.range stl.spec.numOutputs).map (fun i => w.nextId + i)).map
          (fun _ => stl.spec.outShape)⟩,
      w.nextId, hlook, ?_, ?_, rfl, ?_,
      ⟨n0.inputTensors, [w.nextId], [stl.spec.outShape]⟩, rs, rfl, rfl, ?_⟩
    · rw [hfr]
      simp
    · simp [h1, hr1]
    · simp [lookupTensor, htbl, lookup_cons_self]
    · show [stl.spec.outShape] = [shapeOf (callLayer w lid t).1 w.nextId]
      simp [shapeOf, lookupTensor, htbl, lookup_cons_self]
  · -- getSpec preserved
    intro a ha
    obtain ⟨sta, hsa⟩ := Option.isSome_iff_exists.mp ha
    by_cases hal : a = lid
    · subst hal
      rw [hsa] at hll
      cases hll
      simp [getSpec, hlook, hsa]
    · obtain ⟨ob2, h2⟩ := callLayer_lookup_ne t hal hsa
      simp [getSpec, h2, hsa]
  · -- isSome preserved
    intro a ha
    obtain ⟨sta, hsa⟩ := Option.isSome_iff_exists.mp ha
    by_cases hal : a = lid
    · subst hal
      simp [hlook]
    · obtain ⟨ob2, h2⟩ := callLayer_lookup_ne t hal hsa
      simp [h2]
  · -- other layers keep spec and inbound
    intro a sta hal hsa
    exact callLayer_lookup_ne t hal hsa
  · -- tensor table
    rw [hout]
    simp only [List.headD_cons]
    exact htbl
  · rw [callLayer_nextId, hsp, h1]


theorem materialize_layerTbl (des : String × Nat → LayerSpec) (w : World) (r : String × Nat) :
    (materialize des w r).1.layerTbl = (w.nextId, ⟨des r, [], 0⟩) :: w.layerTbl := rfl

theorem materialize_tensorTbl (des : String × Nat → LayerSpec) (w : World) (r : String × Nat) :
    (materialize des w r).1.tensorTbl = w.tensorTbl := rfl

theorem materialize_nextId (des : String × Nat → LayerSpec) (w : World) (r : String × Nat) :
    (materialize des w r).1.nextId = w.nextId + 1 := rfl

theorem materialize_lookup_new (des : String × Nat → LayerSpec) (w : World) (r : String × Nat) :
    lookupLayer (materialize des w r).1 w.nextId = some ⟨des r, [], 0⟩ := by
  show List.lookup _ _ = _
  rw [materialize_layerTbl]
  exact lookup_cons_self _ _ _

theorem materialize_lookup_old (des : String × Nat → LayerSpec) (w : World) (r : String × Nat)
    {a : Nat} (ha : a < w.nextId) :
    lookupLayer (materialize des w r).1 a = lookupLayer w a := by
  show List.lookup _ _ = _
  rw [materialize_layerTbl]
  exact lookup_cons_ne _ _ (by omega)

theorem materialize_wwf (des : String × Nat → LayerSpec) (w : World) (r : String × Nat)
    (hw : WWf w) : WWf (materialize des w r).1 := by
  constructor
  · intro q hq
    rw [materialize_nextId]
    rw [materialize_layerTbl] at hq
    rcases List.mem_cons.mp hq with rfl | hq
    · show w.nextId < w.nextId + 1
      omega
    · have := hw.1 q hq
      omega
  · intro q hq
    rw [materialize_nextId]
    rw [materialize_tensorTbl] at hq
    have := hw.2 q hq
    omega

theorem materialize_seqwf (des : String × Nat → LayerSpec) (w : World) (r : String × Nat)
    (s : Sequential) (hw : WWf w) (hwf : SeqWf w s) : SeqWf (materialize des w r).1 s := by
  rw [SeqWf] at hwf ⊢
  cases hg : s.layersL.getLast? with
  | none => rw [hg] at hwf; exact hwf
  | some p =>
    rw [hg] at hwf
    obtain ⟨stP, n, t, hlp, hpin, hnt, hout, htens, n0, rs, hin, hn0t, hn0s⟩ := hwf
    have hplt : p < w.nextId := lookup_lt_of_wwf hw hlp
    exact ⟨stP, n, t, by rw [materialize_lookup_old des w r hplt]; exact hlp,
      hpin, hnt, hout, htens, n0, rs, hin, hn0t, hn0s⟩

theorem addAll_replay : ∀ (lids : List Nat) (w : World) (s : Sequential) (p : Nat),
    WWf w → SeqWf w s → s.layersL.getLast? = some p →
    (∀ l ∈ lids, ∃ stl, lookupLayer w l = some stl ∧ stl.inbound = [] ∧
      stl.spec.numOutputs = 1) →
    lids.Nodup →
    ∃ (w' : World) (s' : Sequential),
      addAllL w s lids = .ok (w', s') ∧
      s'.layersL = s.layersL ++ lids ∧ WWf w' ∧ SeqWf w' s' ∧
      (∀ a, (lookupLayer w a).isSome = true → getSpec w' a = getSpec w a)
  | [], w, s, p, hw, hwf, hg, hc, hnd =>
      ⟨w, s, rfl, by simp, hw, hwf, fun a _ => rfl⟩
  | l :: ls, w, s, p, hw, hwf, hg, hc, hnd => by
      obtain ⟨stl, hll, hfr, h1⟩ := hc l (List.mem_cons_self _ _)
      obtain ⟨w1, s1, hadd, hly, hw1, hwf1, hsp1, hsome1, hne1, _, _⟩ :=
        add_fresh_step w s l p stl hw hwf hg hll hfr h1
      have hg1 : s1.layersL.getLast? = some l := by rw [hly]; simp
      have hc1 : ∀ l' ∈ ls, ∃ stl', lookupLayer w1 l' = some stl' ∧
          stl'.inbound = [] ∧ stl'.spec.numOutputs = 1 := by
        intro l' hl'
        obtain ⟨stl', hll', hfr', h1'⟩ := hc l' (List.mem_cons_of_mem _ hl')
        have hne : l' ≠ l := by
          rintro rfl
          exact (List.nodup_cons.mp hnd).1 hl'
        obtain ⟨ob, h2⟩ := hne1 l' stl' hne hll'
        exact ⟨_, h2, by simp [hfr'], by simp [h1']⟩
      obtain ⟨w', s', hrun, hly', hw', hwf', hsp'⟩ :=
        addAll_replay ls w1 s1 l hw1 hwf1 hg1 hc1 (List.nodup_cons.mp hnd).2
      refine ⟨w', s', ?_, ?_, hw', hwf', ?_⟩
      · simp only [addAllL, hadd, hrun]
      · rw [hly', hly]
        simp
      · intro a ha
        rw [hsp' a (hsome1 a ha), hsp1 a ha]


/-- The first add of a replay from an empty model, with a plain fresh
single-output layer declaring its batch shape: invariants established. -/
theorem add_first_plain_step (w : World) (s : Sequential) (lid : Nat) (st : LayerSt) (b : Nat)
    (hw : WWf w) (hl : lookupLayer w lid = some st) (hk : st.spec.kind = .plain)
    (hb : st.spec.batchShape = some b) (hout : s.outputs = []) (hinb : s.inbound = [])
    (hfr : st.inbound = []) (h1 : st.spec.numOutputs = 1) :
    ∃ (w' : World) (s' : Sequential), Sequential.add w s lid = .ok (w', s') ∧
      s'.layersL = s.layersL ++ [lid] ∧ WWf w' ∧ SeqWf w' s' ∧
      s'.layersL.getLast? = some lid ∧
      (∀ a, (lookupLayer w a).isSome = true → getSpec w' a = getSpec w a) ∧
      (∀ a, (lookupLayer w a).isSome = true → (lookupLayer w' a).isSome = true) := by
  have hlid : lid < w.nextId := lookup_lt_of_wwf hw hl
  have hadd := add_first_plain_ok w s lid st b hw hl hk hb hout h1
  have hWI : lookupLayer (mkInput w b st.spec.dtype).1 lid = some st :=
    mkInput_lookup b st.spec.dtype hlid hl
  obtain ⟨ob, hLU⟩ := callLayer_lookup_self (mkInput w b st.spec.dtype).2.2 hWI
  rw [mkInput_x, mkInput_nextId] at hLU
  have hspWI : getSpec (mkInput w b st.spec.dtype).1 lid = st.spec := by simp [getSpec, hWI]
  have htbl := callLayer_tensorTbl (mkInput w b st.spec.dtype).1 lid (w.nextId + 1)
  rw [hspWI, h1, mkInput_nextId] at htbl
  have hr1 : List.range 1 = [0] := rfl
  simp only [hr1, List.map_cons, List.map_nil, List.reverse_cons, List.reverse_nil,
    List.nil_append, List.singleton_append, Nat.add_zero] at htbl
  refine ⟨_, _, hadd, rfl, callLayer_wwf lid (w.nextId + 1) (mkInput_wwf b st.spec.dtype hw),
    ?_, by simp, ?_, ?_⟩
  · -- SeqWf of the result
    rw [SeqWf]
    rw [show (s.layersL ++ [lid]).getLast? = some lid from by simp]
    refine ⟨⟨st.spec, st.inbound ++ [⟨[w.nextId + 1],
        (List.range st.spec.numOutputs).map (fun i => w.nextId + 2 + i),
        ((List.range st.spec.numOutputs).map (fun i => w.nextId + 2 + i)).map
          (fun _ => st.spec.outShape)⟩], ob⟩,
      ⟨[w.nextId + 1], (List.range st.spec.numOutputs).map (fun i => w.nextId + 2 + i),
        ((List.range st.spec.numOutputs).map (fun i => w.nextId + 2 + i)).map
          (fun _ => st.spec.outShape)⟩,
      w.nextId + 2, hLU, ?_, ?_, ?_, ?_,
      ⟨[w.nextId + 1], [w.nextId + 2], [st.spec.outShape]⟩, [], ?_, rfl, ?_⟩
    · rw [hfr]
      simp
    · simp [h1, hr1]
    · rfl
    · simp [lookupTensor, htbl, lookup_cons_self]
    · show s.inbound ++ [_] = [_]
      rw [hinb]
      simp
    · show [st.spec.outShape]
        = [shapeOf (callLayer (mkInput w b st.spec.dtype).1 lid (w.nextId + 1)).1 (w.nextId + 2)]
      simp [shapeOf, lookupTensor, htbl, lookup_cons_self]
  · -- getSpec preserved
    intro a ha
    obtain ⟨sta, hsa⟩ := Option.isSome_iff_exists.mp ha
    have halt : a < w.nextId := lookup_lt_of_wwf hw hsa
    have hsa1 : lookupLayer (mkInput w b st.spec.dtype).1 a = some sta :=
      mkInput_lookup b st.spec.dtype halt hsa
    by_cases hal : a = lid
    · subst hal
      rw [hsa] at hl
      cases hl
      simp [getSpec, hLU, hsa]
    · obtain ⟨ob2, h2⟩ := callLayer_lookup_ne (w.nextId + 1) hal hsa1
      simp [getSpec, h2, hsa]
  · -- isSome preserved
    intro a ha
    obtain ⟨sta, hsa⟩ := Option.isSome_iff_exists.mp ha
    have halt : a < w.nextId := lookup_lt_of_wwf hw hsa
    have hsa1 : lookupLayer (mkInput w b st.spec.dtype).1 a = some sta :=
      mkInput_lookup b st.spec.dtype halt hsa
    by_cases hal : a = lid
    · subst hal
      simp [hLU]
    · obtain ⟨ob2, h2⟩ := callLayer_lookup_ne (w.nextId + 1) hal hsa1
      simp [h2]

/-- The first add of a clone replay: an InputLayer with its creation node.
The world is unchanged and the invariants hold afterwards. -/
theorem add_first_input_step (w : World) (s : Sequential) (lid : Nat) (st : LayerSt)
    (n : LNode) (t : Nat)
    (hl : lookupLayer w lid = some st) (hk : st.spec.kind = .inputL)
    (hin : st.inbound = [n]) (hnt : n.outputTensors = [t]) (hout : s.outputs = [])
    (hinb : s.inbound = []) (htens : (lookupTensor w t).isSome = true) :
    ∃ (s' : Sequential), Sequential.add w s lid = .ok (w, s') ∧
      s'.layersL = s.layersL ++ [lid] ∧ SeqWf w s' ∧
      s'.layersL.getLast? = some lid := by
  have hadd := add_first_input_ok w s lid st n t hl hk hin hnt hout
  refine ⟨_, hadd, rfl, ?_, by simp⟩
  rw [SeqWf]
  rw [show (s.layersL ++ [lid]).getLast? = some lid from by simp]
  refine ⟨st, n, t, hl, hin, hnt, rfl, htens,
    ⟨srcInputsOf w t, [t], [shapeOf w t]⟩, [], ?_, rfl, rfl⟩
  rw [hinb]
  simp


theorem materialize_snd (des : String × Nat → LayerSpec) (w : World) (r : String × Nat) :
    (materialize des w r).2 = w.nextId := rfl

theorem fromConfigAux_replay (des : String × Nat → LayerSpec) :
    ∀ (rs : List (String × Nat)) (w : World) (s : Sequential) (p : Nat),
    WWf w → SeqWf w s → s.layersL.getLast? = some p →
    (∀ r ∈ rs, (des r).numOutputs = 1) →
    ∃ (w' : World) (s' : Sequential) (ids : List Nat),
      fromConfigAux des w s rs = .ok (w', s') ∧
      s'.layersL = s.layersL ++ ids ∧ WWf w' ∧ SeqWf w' s' ∧
      List.Forall₂ (fun i r => getSpec w' i = des r) ids rs ∧
      (∀ a, (lookupLayer w a).isSome = true → getSpec w' a = getSpec w a)
  | [], w, s, p, hw, hwf, hg, hc =>
      ⟨w, s, [], rfl, by simp, hw, hwf, List.Forall₂.nil, fun a _ => rfl⟩
  | r :: rs, w, s, p, hw, hwf, hg, hc => by
      have hw1 := materialize_wwf des w r hw
      have hwf1 := materialize_seqwf des w r s hw hwf
      obtain ⟨w2, s2, hadd, hly, hw2, hwf2, hsp2, hsome2, hne2, _, _⟩ :=
        add_fresh_step (materialize des w r).1 s w.nextId p ⟨des r, [], 0⟩
          hw1 hwf1 hg (materialize_lookup_new des w r) rfl (hc r (List.mem_cons_self _ _))
      have hg2 : s2.layersL.getLast? = some w.nextId := by rw [hly]; simp
      obtain ⟨w', s', ids, hrun, hly', hw', hwf', hfa, hsp'⟩ :=
        fromConfigAux_replay des rs w2 s2 w.nextId hw2 hwf2 hg2
          (fun r' hr' => hc r' (List.mem_cons_of_mem _ hr'))
      refine ⟨w', s', w.nextId :: ids, ?_, ?_, hw', hwf', ?_, ?_⟩
      · simp only [fromConfigAux, materialize_snd, hadd, hrun]
      · rw [hly', hly]
        simp
      · refine List.Forall₂.cons ?_ hfa
        have hnew : (lookupLayer (materialize des w r).1 w.nextId).isSome = true := by
          simp [materialize_lookup_new]
        rw [hsp' w.nextId (hsome2 w.nextId hnew), hsp2 w.nextId hnew]
        simp [getSpec, materialize_lookup_new]
      · intro a ha
        obtain ⟨sta, hsa⟩ := Option.isSome_iff_exists.mp ha
        have halt : a < w.nextId := lookup_lt_of_wwf hw hsa
        have hsa1 : (lookupLayer (materialize des w r).1 a).isSome = true := by
          rw [materialize_lookup_old des w r halt]
          exact ha
        rw [hsp' a (hsome2 a hsa1), hsp2 a hsa1]
        show getSpec (materialize des w r).1 a = getSpec w a
        simp [getSpec, materialize_lookup_old des w r halt]


theorem forall₂_mem_left {α β : Type} {R : α → β → Prop} {as : List α} {bs : List β}
    (h : List.Forall₂ R as bs) : ∀ a ∈ as, ∃ b ∈ bs, R a b := by
  induction h with
  | nil => intro a ha; simp at ha
  | cons hr ht ih =>
    intro a ha
    rcases List.mem_cons.mp ha with rfl | ha
    · exact ⟨_, List.mem_cons_self _ _, hr⟩
    · obtain ⟨b, hb, hrb⟩ := ih a ha
      exact ⟨b, List.mem_cons_of_mem _ hb, hrb⟩

theorem forall₂_imp_mem {α β : Type} {R S : α → β → Prop} :
    ∀ {as : List α} {bs : List β}, List.Forall₂ R as bs →
    (∀ a ∈ as, ∀ b ∈ bs, R a b → S a b) → List.Forall₂ S as bs := by
  intro as bs h
  induction h with
  | nil => intro _; exact List.Forall₂.nil
  | cons hr ht ih =>
    intro himp
    refine List.Forall₂.cons ?_ (ih ?_)
    · exact himp _ (List.mem_cons_self _ _) _ (List.mem_cons_self _ _) hr
    · intro a ha b hb hab
      exact himp a (List.mem_cons_of_mem _ ha) b (List.mem_cons_of_mem _ hb) hab

theorem cloneLayer_fst_layerTbl (w : World) (l : Nat) :
    (cloneLayer w l).1.layerTbl = (w.nextId, ⟨getSpec w l, [], 0⟩) :: w.layerTbl := rfl

theorem cloneLayers_spec : ∀ (ls : List Nat) (w : World),
    (∀ l ∈ ls, l < w.nextId) →
    (cloneLayers w ls).1.tensorTbl = w.tensorTbl ∧
    (cloneLayers w ls).1.nextId = w.nextId + ls.length ∧
    (∀ a, a < w.nextId → lookupLayer (cloneLayers w ls).1 a = lookupLayer w a) ∧
    (∀ i ∈ (cloneLayers w ls).2, w.nextId ≤ i) ∧
    (cloneLayers w ls).2.Nodup ∧
    List.Forall₂ (fun i l => lookupLayer (cloneLayers w ls).1 i = some ⟨getSpec w l, [], 0⟩)
      (cloneLayers w ls).2 ls ∧
    (WWf w → WWf (cloneLayers w ls).1)
  | [], w, hls =>
    ⟨rfl, by simp [cloneLayers], fun a _ => rfl, by simp [cloneLayers],
     by simp [cloneLayers], by simp [cloneLayers], fun hw => hw⟩
  | l :: ls, w, hls => by
    have hls' : ∀ l' ∈ ls, l' < (cloneLayer w l).1.nextId := by
      intro l' hl'
      have := hls l' (List.mem_cons_of_mem _ hl')
      show l' < w.nextId + 1
      omega
    obtain ⟨ihT, ihN, ihP, ihB, ihD, ihF, ihW⟩ := cloneLayers_spec ls (cloneLayer w l).1 hls'
    have hc2 : (cloneLayers w (l :: ls)).2 = w.nextId :: (cloneLayers (cloneLayer w l).1 ls).2 := rfl
    have hc1 : (cloneLayers w (l :: ls)).1 = (cloneLayers (cloneLayer w l).1 ls).1 := rfl
    have hnx1 : (cloneLayer w l).1.nextId = w.nextId + 1 := rfl
    have hT1 : (cloneLayer w l).1.tensorTbl = w.tensorTbl := rfl
    refine ⟨?_, ?_, ?_, ?_, ?_, ?_, ?_⟩
    · rw [hc1, ihT, hT1]
    · rw [hc1, ihN, hnx1, List.length_cons]
      omega
    · intro a ha
      rw [hc1, ihP a (by omega)]
      show List.lookup a ((w.nextId, (⟨getSpec w l, [], 0⟩ : LayerSt)) :: w.layerTbl) = _
      rw [lookup_cons_ne _ _ (by omega)]
      rfl
    · intro i hi
      rw [hc2] at hi
      rcases List.mem_cons.mp hi with rfl | hi
      · omega
      · have := ihB i hi
        rw [hnx1] at this
        omega
    · rw [hc2]
      refine List.nodup_cons.mpr ⟨?_, ihD⟩
      intro hmem
      have := ihB _ hmem
      rw [hnx1] at this
      omega
    · rw [hc2, hc1]
      refine List.Forall₂.cons ?_ ?_
      · rw [ihP w.nextId (by rw [hnx1]; omega)]
        show List.lookup w.nextId ((w.nextId, _) :: w.layerTbl) = _
        rw [lookup_cons_self]
      · refine forall₂_imp_mem ihF ?_
        intro i hi l' hl' hR
        rw [hR]
        have hlt : l' < w.nextId := hls l' (List.mem_cons_of_mem _ hl')
        have hpl : lookupLayer (cloneLayer w l).1 l' = lookupLayer w l' := by
          show List.lookup l' ((w.nextId, (⟨getSpec w l, [], 0⟩ : LayerSt)) :: w.layerTbl) = _
          rw [lookup_cons_ne _ _ (by omega)]
          rfl
        simp [getSpec, hpl]
    · intro hw
      refine ihW ⟨?_, ?_⟩
      · intro q hq
        rw [cloneLayer_fst_layerTbl] at hq
        rw [hnx1]
        rcases List.mem_cons.mp hq with rfl | hq
        · show w.nextId < w.nextId + 1
          omega
        · have := hw.1 q hq
          omega
      · intro q hq
        rw [hT1] at hq
        rw [hnx1]
        have := hw.2 q hq
        omega


/-- C10: cloning a Sequential model with a replacement input tensor that
originates from an InputLayer returns a clone whose first stack entry is that
original input-layer object itself (the same handle, shared by reference),
while every subsequent layer is a freshly instantiated handle absent from the
source arena but carrying the same spec as the corresponding source layer. -/
theorem c10_clone_shares_input_layer (w : World) (s : Sequential) (x o : Nat) (sto : LayerSt) (n : LNode) (t : Nat)
    (hw : WWf w)
    (horig : originOf w x = some o) (hlo : lookupLayer w o = some sto)
    (hko : sto.spec.kind = .inputL) (hoin : sto.inbound = [n]) (hont : n.outputTensors = [t])
    (htin : (lookupTensor w t).isSome = true)
    (hlay : ∀ l ∈ s.layersL, ∃ stl, lookupLayer w l = some stl ∧ stl.spec.numOutputs = 1) :
    ∃ (w' : World) (s' : Sequential) (ids : List Nat),
      _clone_sequential_model w s (some [x]) = .ok (w', s') ∧
      s'.layersL = o :: ids ∧
      (∀ i ∈ ids, ∀ q ∈ w.layerTbl, q.1 ≠ i) ∧
      List.Forall₂ (fun i l => getSpec w' i = getSpec w l) ids s.layersL := by
  have hls : ∀ l ∈ s.layersL, l < w.nextId := by
    intro l hl
    obtain ⟨stl, hsl, _⟩ := hlay l hl
    exact lookup_lt_of_wwf hw hsl
  obtain ⟨htT, hnx, hpres, hbnd, hnd, hfa, hwwf⟩ := cloneLayers_spec s.layersL w hls
  have holt : o < w.nextId := lookup_lt_of_wwf hw hlo
  have hloc : lookupLayer (cloneLayers w s.layersL).1 o = some sto := by
    rw [hpres o holt]; exact hlo
  have horigc : originOf (cloneLayers w s.layersL).1 x = some o := by
    show (List.lookup x (cloneLayers w s.layersL).1.tensorTbl).bind TInfo.origin = some o
    rw [htT]; exact horig
  have hgo : getSpec (cloneLayers w s.layersL).1 o = sto.spec := by
    simp [getSpec, hloc]
  have htinc : (lookupTensor (cloneLayers w s.layersL).1 t).isSome = true := by
    show (List.lookup t (cloneLayers w s.layersL).1.tensorTbl).isSome = true
    rw [htT]; exact htin
  obtain ⟨s1, hadd1, hly1, hwf1, hg1⟩ :=
    add_first_input_step (cloneLayers w s.layersL).1 emptySeq o sto n t
      hloc hko hoin hont rfl rfl htinc
  have hcond : ∀ i ∈ (cloneLayers w s.layersL).2, ∃ stl,
      lookupLayer (cloneLayers w s.layersL).1 i = some stl ∧ stl.inbound = [] ∧
      stl.spec.numOutputs = 1 := by
    intro i hi
    obtain ⟨l, hl, hR⟩ := forall₂_mem_left hfa i hi
    obtain ⟨stl, hsl, hnum⟩ := hlay l hl
    refine ⟨_, hR, rfl, ?_⟩
    show (getSpec w l).numOutputs = 1
    simp [getSpec, hsl, hnum]
  obtain ⟨w', s', hrun, hly', hw', hwf', hsp'⟩ :=
    addAll_replay (cloneLayers w s.layersL).2 (cloneLayers w s.layersL).1 s1 o
      (hwwf hw) hwf1 hg1 hcond hnd
  refine ⟨w', s', (cloneLayers w s.layersL).2, ?_, ?_, ?_, ?_⟩
  · simp only [_clone_sequential_model]
    rw [if_neg (by simp)]
    simp only [List.headD_cons, horigc, hgo, hko]
    simp only [mkSequential, addAllL, hadd1, hrun]
  · rw [hly', hly1]
    simp [emptySeq]
  · intro i hi q hq
    have h1 := hbnd i hi
    have h2 := hw.1 q hq
    omega
  · refine List.Forall₂.imp ?_ hfa
    intro i l hR
    have hiS : (lookupLayer (cloneLayers w s.layersL).1 i).isSome = true := by
      simp [hR]
    rw [hsp' i hiS]
    simp [getSpec, hR]


/-- Closed witness for c10_clone_shares_input_layer. -/
theorem c10_witness :
    ∃ (w' : World) (s' : Sequential) (ids : List Nat),
      _clone_sequential_model
        ⟨[(0, ⟨demoSpec, [], 0⟩),
          (10, ⟨⟨"InputLayer", 0, 1, some 5, 1, 5, .inputL⟩, [⟨[20], [20], [5]⟩], 0⟩)],
         [(20, ⟨5, some 10, [20]⟩)], 21⟩
        { emptySeq with layersL := [0] } (some [20]) = .ok (w', s') ∧
      s'.layersL = 10 :: ids ∧
      (∀ i ∈ ids, ∀ q ∈ (⟨[(0, ⟨demoSpec, [], 0⟩),
          (10, ⟨⟨"InputLayer", 0, 1, some 5, 1, 5, .inputL⟩, [⟨[20], [20], [5]⟩], 0⟩)],
         [(20, ⟨5, some 10, [20]⟩)], 21⟩ : World).layerTbl, q.1 ≠ i) ∧
      List.Forall₂ (fun i l => getSpec w' i =
        getSpec ⟨[(0, ⟨demoSpec, [], 0⟩),
          (10, ⟨⟨"InputLayer", 0, 1, some 5, 1, 5, .inputL⟩, [⟨[20], [20], [5]⟩], 0⟩)],
         [(20, ⟨5, some 10, [20]⟩)], 21⟩ l) ids
        ({ emptySeq with layersL := [0] } : Sequential).layersL :=
  c10_clone_shares_input_layer
    ⟨[(0, ⟨demoSpec, [], 0⟩),
      (10, ⟨⟨"InputLayer", 0, 1, some 5, 1, 5, .inputL⟩, [⟨[20], [20], [5]⟩], 0⟩)],
     [(20, ⟨5, some 10, [20]⟩)], 21⟩
    { emptySeq with layersL := [0] } 20 10
    ⟨⟨"InputLayer", 0, 1, some 5, 1, 5, .inputL⟩, [⟨[20], [20], [5]⟩], 0⟩
    ⟨[20], [20], [5]⟩ 20
    (by unfold WWf; exact ⟨by decide, by decide⟩)
    rfl rfl rfl rfl rfl rfl
    (fun l hl => by
      rw [List.mem_singleton] at hl
      subst hl
      exact ⟨⟨demoSpec, [], 0⟩, rfl, rfl⟩)

theorem map_getSpec_of_forall₂ (des : String × Nat → LayerSpec)
    (hdes : ∀ c k, (des (c, k)).className = c ∧ (des (c, k)).cfg = k)
    {ids : List Nat} {conf : List (String × Nat)} (w' : World)
    (h : List.Forall₂ (fun i r => getSpec w' i = des r) ids conf) :
    ids.map (fun i => ((getSpec w' i).className, (getSpec w' i).cfg)) = conf := by
  induction h with
  | nil => rfl
  | @cons a b as bs hr ht ih =>
    obtain ⟨c, k⟩ := b
    simp only [List.map_cons, ih, hr, (hdes c k).1, (hdes c k).2]

theorem fromConfig_good (des : String × Nat → LayerSpec) :
    ∀ (conf : List (String × Nat)) (w : World), WWf w →
    (∀ r ∈ conf, (des r).numOutputs = 1 ∧ (des r).kind = .plain ∧
      (des r).batchShape.isSome = true) →
    ∃ (w' : World) (s' : Sequential) (ids : List Nat),
      Sequential.from_config des w conf = .ok (w', s') ∧
      s'.layersL = ids ∧
      List.Forall₂ (fun i r => getSpec w' i = des r) ids conf
  | [], w, hw, hc => ⟨w, emptySeq, [], rfl, rfl, List.Forall₂.nil⟩
  | r :: rs, w, hw, hc => by
    obtain ⟨h1, hk, hbs⟩ := hc r (List.mem_cons_self _ _)
    obtain ⟨b, hb⟩ := Option.isSome_iff_exists.mp hbs
    have hw1 := materialize_wwf des w r hw
    obtain ⟨w2, s2, hadd, hly, hw2, hwf2, hg2, hsp2, hsome2⟩ :=
      add_first_plain_step (materialize des w r).1 emptySeq w.nextId ⟨des r, [], 0⟩ b
        hw1 (materialize_lookup_new des w r) hk hb rfl rfl rfl h1
    obtain ⟨w', s', ids, hrun, hly', hw', hwf', hfa, hsp'⟩ :=
      fromConfigAux_replay des rs w2 s2 w.nextId hw2 hwf2 hg2
        (fun r' hr' => (hc r' (List.mem_cons_of_mem _ hr')).1)
    refine ⟨w', s', w.nextId :: ids, ?_, ?_, ?_⟩
    · show fromConfigAux des w emptySeq (r :: rs) = _
      simp only [fromConfigAux, materialize_snd, hadd, hrun]
    · rw [hly', hly]
      simp [emptySeq]
    · refine List.Forall₂.cons ?_ hfa
      have hnew : (lookupLayer (materialize des w r).1 w.nextId).isSome = true := by
        simp [materialize_lookup_new]
      rw [hsp' w.nextId (hsome2 w.nextId hnew), hsp2 w.nextId hnew]
      simp [getSpec, materialize_lookup_new]

theorem fromConfigAux_bad (des : String × Nat → LayerSpec) (post : List (String × Nat))
    (r : String × Nat) (hm : 2 ≤ (des r).numOutputs) :
    ∀ (pre : List (String × Nat)) (w : World) (s : Sequential) (p : Nat),
    WWf w → SeqWf w s → s.layersL.getLast? = some p →
    (∀ q ∈ pre, (des q).numOutputs = 1) →
    ∃ e : PyErr, fromConfigAux des w s (pre ++ r :: post) = .error e ∧
      e.msg = singleOutputMsg
  | [], w, s, p, hw, hwf, hg, hc => by
    rw [SeqWf, hg] at hwf
    obtain ⟨stP, n, t, hlp, hpin, hnt, hout, htens, n0, rs0, hin, hn0t, hn0s⟩ := hwf
    have herr := add_subsequent_err (materialize des w r).1 s w.nextId ⟨des r, [], 0⟩ t []
      (materialize_lookup_new des w r) hout (by show (des r).numOutputs ≠ 1; omega)
    refine ⟨.typeError singleOutputMsg, ?_, rfl⟩
    show fromConfigAux des w s ([] ++ r :: post) = _
    simp only [List.nil_append, fromConfigAux, materialize_snd, herr]
  | q :: pre, w, s, p, hw, hwf, hg, hc => by
    have hw1 := materialize_wwf des w q hw
    have hwf1 := materialize_seqwf des w q s hw hwf
    obtain ⟨w2, s2, hadd, hly, hw2, hwf2, hsp2, hsome2, hne2, _, _⟩ :=
      add_fresh_step (materialize des w q).1 s w.nextId p ⟨des q, [], 0⟩ hw1 hwf1 hg
        (materialize_lookup_new des w q) rfl (hc q (List.mem_cons_self _ _))
    obtain ⟨e, hrun, hmsg⟩ := fromConfigAux_bad des post r hm pre w2 s2 w.nextId hw2 hwf2
      (by rw [hly]; simp) (fun q' hq' => hc q' (List.mem_cons_of_mem _ hq'))
    refine ⟨e, ?_, hmsg⟩
    show fromConfigAux des w s ((q :: pre) ++ r :: post) = _
    simp only [List.cons_append, fromConfigAux, materialize_snd, hadd]
    simpa using hrun

/-- C5: under a deserialization registry that respects class names and
configs, from_config applied to get_config of a Sequential built from
serializable single-output layers reproduces the same ordered list of
(class name, config) records; and because from_config replays add for each
record, a config edited so that some record deserializes to a multi-output
layer is rejected with the same single-output validation error as live
construction, at any position. -/
theorem c5_config_roundtrip (des : String × Nat → LayerSpec)
    (hdes : ∀ c k, (des (c, k)).className = c ∧ (des (c, k)).cfg = k) :
    (∀ (w : World) (s : Sequential), WWf w →
      (∀ r ∈ Sequential.get_config w s, (des r).numOutputs = 1 ∧ (des r).kind = .plain ∧
        (des r).batchShape.isSome = true) →
      ∃ (w' : World) (s' : Sequential),
        Sequential.from_config des w (Sequential.get_config w s) = .ok (w', s') ∧
        Sequential.get_config w' s' = Sequential.get_config w s) ∧
    (∀ (w : World) (pre post : List (String × Nat)) (r : String × Nat), WWf w →
      (∀ q ∈ pre, (des q).numOutputs = 1 ∧ (des q).kind = .plain ∧
        (des q).batchShape.isSome = true) →
      2 ≤ (des r).numOutputs → (des r).kind = .plain → (des r).batchShape.isSome = true →
      ∃ e : PyErr, Sequential.from_config des w (pre ++ r :: post) = .error e ∧
        e.msg = singleOutputMsg) := by
  constructor
  · intro w s hw hc
    obtain ⟨w', s', ids, hrun, hly', hfa⟩ := fromConfig_good des (Sequential.get_config w s) w hw hc
    refine ⟨w', s', hrun, ?_⟩
    show s'.layersL.map _ = _
    rw [hly']
    exact map_getSpec_of_forall₂ des hdes w' hfa
  · intro w pre post r hw hc hm hk hbs
    cases pre with
    | nil =>
      obtain ⟨b, hb⟩ := Option.isSome_iff_exists.mp hbs
      have herr := add_first_plain_err (materialize des w r).1 emptySeq w.nextId
        ⟨des r, [], 0⟩ b (materialize_wwf des w r hw) (materialize_lookup_new des w r)
        hk hb rfl (by show (des r).numOutputs ≠ 1; omega)
      refine ⟨.valueError singleOutputMsg, ?_, rfl⟩
      show fromConfigAux des w emptySeq ([] ++ r :: post) = _
      simp only [List.nil_append, fromConfigAux, materialize_snd, herr]
    | cons q pre =>
      obtain ⟨h1q, hkq, hbq⟩ := hc q (List.mem_cons_self _ _)
      obtain ⟨bq, hbq'⟩ := Option.isSome_iff_exists.mp hbq
      obtain ⟨w2, s2, hadd, hly, hw2, hwf2, hg2, hsp2, hsome2⟩ :=
        add_first_plain_step (materialize des w q).1 emptySeq w.nextId ⟨des q, [], 0⟩ bq
          (materialize_wwf des w q hw) (materialize_lookup_new des w q) hkq hbq' rfl rfl rfl h1q
      obtain ⟨e, hrun, hmsg⟩ := fromConfigAux_bad des post r hm pre w2 s2 w.nextId hw2 hwf2 hg2
        (fun q' hq' => (hc q' (List.mem_cons_of_mem _ hq')).1)
      refine ⟨e, ?_, hmsg⟩
      show fromConfigAux des w emptySeq ((q :: pre) ++ r :: post) = _
      simp only [List.cons_append, fromConfigAux, materialize_snd, hadd]
      simpa using hrun


/-- Closed witness for c5_config_roundtrip, applying the round-trip part with
a registry that deserializes every record to a single-output layer, and the
rejection part with a registry under which the record config is the output
count (so the edited record ("Split", 2) deserializes to a two-output layer). -/
theorem c5_witness :
    (∃ (w' : World) (s' : Sequential),
      Sequential.from_config (fun r => (⟨r.1, r.2, 1, some 5, 1, 9, .plain⟩ : LayerSpec))
        demoTraceB1.1 (Sequential.get_config demoTraceB1.1 demoTraceB1.2) = .ok (w', s') ∧
      Sequential.get_config w' s' = Sequential.get_config demoTraceB1.1 demoTraceB1.2) ∧
    (∃ e : PyErr,
      Sequential.from_config (fun r => (⟨r.1, r.2, r.2, some 5, 1, 9, .plain⟩ : LayerSpec))
        demoW0 [("Split", 2)] = .error e ∧ e.msg = singleOutputMsg) :=
  ⟨(c5_config_roundtrip (fun r => (⟨r.1, r.2, 1, some 5, 1, 9, .plain⟩ : LayerSpec))
      (fun c k => ⟨rfl, rfl⟩)).1 demoTraceB1.1 demoTraceB1.2
      (by unfold WWf; exact ⟨by decide, by decide⟩) (fun r _ => ⟨rfl, rfl, rfl⟩),
   (c5_config_roundtrip (fun r => (⟨r.1, r.2, r.2, some 5, 1, 9, .plain⟩ : LayerSpec))
      (fun c k => ⟨rfl, rfl⟩)).2 demoW0 [] [] ("Split", 2)
      (by unfold WWf; exact ⟨by decide, by decide⟩)
      (fun q hq => absurd hq (List.not_mem_nil q))
      (by decide) rfl rfl⟩

namespace FClone

theorem lookup_pair_mem {β : Type} {k : Nat} {v : β} :
    ∀ {l : List (Nat × β)}, List.lookup k l = some v → (k, v) ∈ l := by
  intro l
  induction l with
  | nil => intro h; simp [List.lookup] at h
  | cons p tl ih =>
    intro h
    obtain ⟨a, b⟩ := p
    by_cases hk : k = a
    · subst hk
      rw [lookup_cons_self] at h
      have hb := Option.some.inj h
      subst hb
      exact List.mem_cons_self _ _
    · rw [lookup_cons_ne _ _ hk] at h
      exact List.mem_cons_of_mem _ (ih h)

theorem lookup_eq_of_nodup {β : Type} {k : Nat} {v : β} :
    ∀ {l : List (Nat × β)}, (l.map Prod.fst).Nodup → (k, v) ∈ l →
      List.lookup k l = some v := by
  intro l
  induction l with
  | nil => intro _ h; exact absurd h (List.not_mem_nil _)
  | cons p tl ih =>
    intro hnd hm
    obtain ⟨a, b⟩ := p
    rw [List.map_cons, List.nodup_cons] at hnd
    rcases List.mem_cons.mp hm with he | ht
    · rw [Prod.mk.injEq] at he
      obtain ⟨rfl, rfl⟩ := he
      exact lookup_cons_self _ _ _
    · have hk : k ≠ a := by
        intro hk
        subst hk
        have hmm := List.mem_map_of_mem Prod.fst ht
        exact hnd.1 hmm
      rw [lookup_cons_ne _ _ hk]
      exact ih hnd.2 ht

theorem addSubsts_cons (t : Nat) (ts : List Nat) (st : CState) :
    addSubsts (t :: ts) st =
      addSubsts ts { st with tensorMap := (t, st.fresh) :: st.tensorMap, fresh := st.fresh + 1 } :=
  rfl

theorem addSubsts_skipped : ∀ (ts : List Nat) (st : CState),
    (addSubsts ts st).skipped = st.skipped := by
  intro ts
  induction ts with
  | nil => intro st; rfl
  | cons t ts ih => intro st; rw [addSubsts_cons]; exact ih _

theorem addSubsts_mono : ∀ (ts : List Nat) (st : CState) (x : Nat),
    present st x → present (addSubsts ts st) x := by
  intro ts
  induction ts with
  | nil => intro st x h; exact h
  | cons t ts ih =>
    intro st x h
    rw [addSubsts_cons]
    refine ih _ _ ?_
    show (List.lookup x ((t, st.fresh) :: st.tensorMap)).isSome = true
    by_cases hxt : x = t
    · subst hxt; rw [lookup_cons_self]; rfl
    · rw [lookup_cons_ne _ _ hxt]; exact h

theorem addSubsts_present : ∀ (ts : List Nat) (st : CState) (x : Nat),
    x ∈ ts → present (addSubsts ts st) x := by
  intro ts
  induction ts with
  | nil => intro st x h; exact absurd h (List.not_mem_nil x)
  | cons t ts ih =>
    intro st x h
    rw [addSubsts_cons]
    rcases List.mem_cons.mp h with rfl | ht
    · refine addSubsts_mono _ _ _ ?_
      show (List.lookup x ((x, st.fresh) :: st.tensorMap)).isSome = true
      rw [lookup_cons_self]; rfl
    · exact ih _ _ ht

theorem seedLayers_ghost : ∀ (ls : List Nat) (st : CState),
    (seedLayers ls st).tensorMap = st.tensorMap ∧ (seedLayers ls st).skipped = st.skipped := by
  intro ls
  induction ls with
  | nil => intro st; exact ⟨rfl, rfl⟩
  | cons l ls ih => intro st; exact ih _

theorem visitNode_ok (ids : List Nat) (st : CState) (n : FNode)
    (hsk : st.skipped = false)
    (hinp : ∀ x ∈ n.inputs, present st x)
    (hcov : n.layer ∈ ids → ∀ x ∈ n.outputs, present st x) :
    (visitNode ids st n).skipped = false ∧
    (∀ x, present st x → present (visitNode ids st n) x) ∧
    (∀ x ∈ n.outputs, present (visitNode ids st n) x) := by
  have hfil : n.inputs.filter (fun x => (List.lookup x st.tensorMap).isSome) = n.inputs :=
    List.filter_eq_self.mpr (fun x hx => hinp x hx)
  cases hl : List.lookup n.layer st.layerMap with
  | none =>
    have hv : visitNode ids st n =
        addSubsts n.outputs
          { st with layerMap := (n.layer, st.fresh) :: st.layerMap, fresh := st.fresh + 1 } := by
      simp only [visitNode, hl]
      simp [hfil]
    rw [hv]
    refine ⟨?_, ?_, ?_⟩
    · rw [addSubsts_skipped]; exact hsk
    · intro x hx; exact addSubsts_mono _ _ _ hx
    · intro x hx; exact addSubsts_present _ _ _ hx
  | some c =>
    cases hd : decide (n.layer ∈ ids) with
    | true =>
      have hv : visitNode ids st n = st := by
        simp [visitNode, hl, hd]
      rw [hv]
      exact ⟨hsk, fun x hx => hx, fun x hx => hcov (of_decide_eq_true hd) x hx⟩
    | false =>
      have hv : visitNode ids st n = addSubsts n.outputs st := by
        simp [visitNode, hl, hd, hfil]
      rw [hv]
      refine ⟨?_, ?_, ?_⟩
      · rw [addSubsts_skipped]; exact hsk
      · intro x hx; exact addSubsts_mono _ _ _ hx
      · intro x hx; exact addSubsts_present _ _ _ hx

theorem visitBucket_ok (ids : List Nat) :
    ∀ (ns : List FNode) (st : CState),
    st.skipped = false →
    (∀ n ∈ ns, ∀ x ∈ n.inputs, present st x) →
    (∀ n ∈ ns, n.layer ∈ ids → ∀ x ∈ n.outputs, present st x) →
    (visitBucket ids st ns).skipped = false ∧
    (∀ x, present st x → present (visitBucket ids st ns) x) ∧
    (∀ n ∈ ns, ∀ x ∈ n.outputs, present (visitBucket ids st ns) x) := by
  intro ns
  induction ns with
  | nil =>
    intro st hsk _ _
    exact ⟨hsk, fun x hx => hx, fun n hn => absurd hn (List.not_mem_nil n)⟩
  | cons n ns ih =>
    intro st hsk hinp hcov
    obtain ⟨h1s, h1m, h1o⟩ := visitNode_ok ids st n hsk
      (hinp n (List.mem_cons_self n ns))
      (fun hm => hcov n (List.mem_cons_self n ns) hm)
    obtain ⟨h2s, h2m, h2o⟩ := ih (visitNode ids st n) h1s
      (fun q hq x hx => h1m x (hinp q (List.mem_cons_of_mem n hq) x hx))
      (fun q hq hm x hx => h1m x (hcov q (List.mem_cons_of_mem n hq) hm x hx))
    refine ⟨h2s, fun x hx => h2m x (h1m x hx), ?_⟩
    intro q hq x hx
    rcases List.mem_cons.mp hq with rfl | hq'
    · exact h2m x (h1o x hx)
    · exact h2o q hq' x hx

theorem mem_insertDesc (a x : Nat) :
    ∀ (l : List Nat), x ∈ insertDesc a l ↔ x = a ∨ x ∈ l := by
  intro l
  induction l with
  | nil => simp [insertDesc]
  | cons b l ih =>
    show x ∈ (if b < a then a :: b :: l else b :: insertDesc a l) ↔ _
    by_cases hb : b < a
    · rw [if_pos hb]
      simp [List.mem_cons]
    · rw [if_neg hb]
      rw [List.mem_cons, ih, List.mem_cons]
      tauto

theorem pairwise_insertDesc (a : Nat) : ∀ (l : List Nat),
    l.Pairwise (fun x y => y ≤ x) → (insertDesc a l).Pairwise (fun x y => y ≤ x) := by
  intro l
  induction l with
  | nil => intro _; exact List.pairwise_singleton _ _
  | cons b l ih =>
    intro hp
    rw [List.pairwise_cons] at hp
    obtain ⟨hb, hl⟩ := hp
    show List.Pairwise (fun x y => y ≤ x) (if b < a then a :: b :: l else b :: insertDesc a l)
    by_cases hba : b < a
    · rw [if_pos hba]
      refine List.pairwise_cons.mpr ⟨?_, List.pairwise_cons.mpr ⟨hb, hl⟩⟩
      intro y hy
      rcases List.mem_cons.mp hy with rfl | hy'
      · exact Nat.le_of_lt hba
      · exact Nat.le_trans (hb y hy') (Nat.le_of_lt hba)
    · rw [if_neg hba]
      refine List.pairwise_cons.mpr ⟨?_, ih hl⟩
      intro y hy
      rcases (mem_insertDesc a y l).mp hy with rfl | hy'
      · exact Nat.le_of_not_lt hba
      · exact hb y hy'

theorem pairwise_sortDesc : ∀ (l : List Nat), (sortDesc l).Pairwise (fun x y => y ≤ x) := by
  intro l
  induction l with
  | nil => exact List.Pairwise.nil
  | cons a l ih => exact pairwise_insertDesc a _ ih

theorem mem_sortDesc (x : Nat) : ∀ (l : List Nat), x ∈ sortDesc l ↔ x ∈ l := by
  intro l
  induction l with
  | nil => exact Iff.rfl
  | cons a l ih =>
    show x ∈ insertDesc a (sortDesc l) ↔ x ∈ a :: l
    rw [mem_insertDesc a x (sortDesc l), ih, List.mem_cons]

theorem bucketOf_eq_of_nodup {m : FModel} (hnd : (m.nodesByDepth.map Prod.fst).Nodup)
    {p : Nat × List FNode} (hp : p ∈ m.nodesByDepth) : bucketOf m p.1 = p.2 := by
  have hlk : List.lookup p.1 m.nodesByDepth = some p.2 := lookup_eq_of_nodup hnd hp
  unfold bucketOf
  rw [hlk]
  rfl

theorem cloneFold_ok (m : FModel) (hwf : WF m) : ∀ (ds : List Nat) (st : CState),
    List.Pairwise (fun x y => y ≤ x) ds →
    st.skipped = false →
    (∀ x ∈ m.inputs, present st x) →
    (∀ p ∈ m.nodesByDepth, p.1 ∉ ds → ∀ n ∈ p.2, ∀ x ∈ n.outputs, present st x) →
    (ds.foldl (fun st d => visitBucket m.inputLayerIds st (bucketOf m d)) st).skipped = false ∧
    (∀ x ∈ m.inputs,
      present (ds.foldl (fun st d => visitBucket m.inputLayerIds st (bucketOf m d)) st) x) ∧
    (∀ p ∈ m.nodesByDepth, ∀ n ∈ p.2, ∀ x ∈ n.outputs,
      present (ds.foldl (fun st d => visitBucket m.inputLayerIds st (bucketOf m d)) st) x) := by
  intro ds
  induction ds with
  | nil =>
    intro st _ hsk hin hout
    exact ⟨hsk, fun x hx => hin x hx, fun p hp n hn x hx =>
      hout p hp (List.not_mem_nil p.1) n hn x hx⟩
  | cons d ds ih =>
    intro st hpw hsk hin hout
    rw [List.pairwise_cons] at hpw
    obtain ⟨hdle, hpw'⟩ := hpw
    have hbinp : ∀ n ∈ bucketOf m d, ∀ x ∈ n.inputs, present st x := by
      intro n hn x hx
      cases hl : List.lookup d m.nodesByDepth with
      | none =>
        unfold bucketOf at hn
        rw [hl, Option.getD_none] at hn
        exact absurd hn (List.not_mem_nil n)
      | some b =>
        unfold bucketOf at hn
        rw [hl, Option.getD_some] at hn
        have hpa : x ∈ m.inputs ∨
            ∃ p ∈ m.nodesByDepth, d < p.1 ∧ ∃ q ∈ p.2, x ∈ q.outputs :=
          hwf.inputsAbove (d, b) (lookup_pair_mem hl) n hn x hx
        rcases hpa with hxi | ⟨p', hp', hlt, n', hn', hx'⟩
        · exact hin x hxi
        · refine hout p' hp' ?_ n' hn' x hx'
          intro hm
          rcases List.mem_cons.mp hm with he | hm'
          · omega
          · exact absurd (hdle p'.1 hm') (by omega)
    have hbcov : ∀ n ∈ bucketOf m d, n.layer ∈ m.inputLayerIds →
        ∀ x ∈ n.outputs, present st x := by
      intro n hn hml x hx
      cases hl : List.lookup d m.nodesByDepth with
      | none =>
        unfold bucketOf at hn
        rw [hl, Option.getD_none] at hn
        exact absurd hn (List.not_mem_nil n)
      | some b =>
        unfold bucketOf at hn
        rw [hl, Option.getD_some] at hn
        exact hin x (hwf.inputNodesCovered (d, b) (lookup_pair_mem hl) n hn hml x hx)
    obtain ⟨hbs, hbm, hbo⟩ := visitBucket_ok m.inputLayerIds (bucketOf m d) st hsk hbinp hbcov
    refine ih (visitBucket m.inputLayerIds st (bucketOf m d)) hpw' hbs ?_ ?_
    · intro x hx
      exact hbm x (hin x hx)
    · intro p hp hpd n hn x hx
      by_cases hpd1 : p.1 = d
      · have hb : bucketOf m d = p.2 := by
          rw [← hpd1]
          exact bucketOf_eq_of_nodup hwf.nodupKeys hp
        have hn' : n ∈ bucketOf m d := by rw [hb]; exact hn
        exact hbo n hn' x hx
      · refine hbm x (hout p hp ?_ n hn x hx)
        intro hm
        rcases List.mem_cons.mp hm with he | hm'
        · exact hpd1 he
        · exact hpd hm'

/-- C1: the clone traversal of a well-formed functional model is complete:
walking the depth keys in decreasing order, every node finds all its input
substitutions already recorded, so no node is ever silently skipped by the
all-inputs-computed check (ghost flag stays false) and every declared model
output ends up with a substitution entry (the final gather over output_tensors
cannot fail). -/
theorem c1_functional_clone_complete (m : FModel) (hwf : WF m) :
    (runClone m).skipped = false ∧ ∀ x ∈ m.outputs, present (runClone m) x := by
  have hsk2 : (addSubsts m.inputs (seedLayers m.inputLayers ⟨[], [], 0, false⟩)).skipped
      = false := by
    rw [addSubsts_skipped]
    exact (seedLayers_ghost m.inputLayers ⟨[], [], 0, false⟩).2
  have hin2 : ∀ x ∈ m.inputs,
      present (addSubsts m.inputs (seedLayers m.inputLayers ⟨[], [], 0, false⟩)) x :=
    fun x hx => addSubsts_present _ _ _ hx
  have hout2 : ∀ p ∈ m.nodesByDepth, p.1 ∉ sortDesc (m.nodesByDepth.map Prod.fst) →
      ∀ n ∈ p.2, ∀ x ∈ n.outputs,
      present (addSubsts m.inputs (seedLayers m.inputLayers ⟨[], [], 0, false⟩)) x := by
    intro p hp hnm
    exact absurd ((mem_sortDesc p.1 _).mpr (List.mem_map_of_mem Prod.fst hp)) hnm
  obtain ⟨h1, h2, h3⟩ := cloneFold_ok m hwf (sortDesc (m.nodesByDepth.map Prod.fst))
    (addSubsts m.inputs (seedLayers m.inputLayers ⟨[], [], 0, false⟩))
    (pairwise_sortDesc _) hsk2 hin2 hout2
  constructor
  · exact h1
  · intro x hx
    rcases hwf.outputsProduced x hx with hxi | ⟨p, hp, n, hn, hxo⟩
    · exact h2 x hxi
    · exact h3 p hp n hn x hxo

/-- C1 witness: on the two-node demonstration model the traversal never skips
a node and the single declared output tensor receives a substitution. -/
theorem c1_witness :
    (runClone demoFModel).skipped = false ∧ present (runClone demoFModel) 2 :=
  ⟨(c1_functional_clone_complete demoFModel
      ⟨by decide, by decide, by decide, by decide⟩).1,
   (c1_functional_clone_complete demoFModel
      ⟨by decide, by decide, by decide, by decide⟩).2 2 (by decide)⟩

end FClone

end KerasModels
